import Mathlib

/-!
# symbol_resolver: address expressions and symbol lookup

A shallow embedding of `src/symbol_resolver.cpp` (class `symbol_resolver`)
and of the C library calls its address parser is built on.

Conventions.
* A C string (`const char*`) is the list of its characters before the
  terminating NUL (`CStr`); `charAt s i` is `s[i]` and reads the NUL at
  `i = length`.
* `uintmax_t`, `uintptr_t`, `GElf_Addr`, `Dwarf_Addr` are 64 bit wide: values
  are naturals below `2^64`, arithmetic on them is reduced modulo `2^64`.
* libc (`strtoumax`, `sscanf`) follows glibc in the C locale.
* libdwfl / libdw / libelf are not part of the repository.  What they answer
  is data of the model (`Dwfl`, `Dwfl_Module`, ...): tables where the source
  iterates over them itself, functions where the library does the search.
* `std::runtime_error` is modelled by the value `Error` that carries the
  arguments of the message.  The source formats each message that has
  arguments with `sprintf` into `char str[100]` before it throws: the model
  builds the text, and a text that does not fit the buffer with its
  terminating NUL gives `Error.sprintf_overrun` (the write past the buffer,
  undefined behaviour) instead of the exception.
-/

namespace SymbolResolver

/-! ## C strings and character classes -/

/-- The characters of a NUL-terminated C string, the terminator left out. -/
abbrev CStr := List Char

/-- The byte `s[i]` of a C string: the terminating NUL is read at `i = length`. -/
def charAt (s : CStr) (i : Nat) : Char := s.getD i '\x00'

/-- The 64-bit modulus of `uintmax_t`. -/
def UINTMAX_MOD : Nat := 2 ^ 64

/-- The value `INTMAX_MAX` of a 64-bit `intmax_t`. -/
def INTMAX_MAX : Nat := 2 ^ 63 - 1

/-- C `isspace` in the C locale: space, `\t`, `\n`, `\v`, `\f`, `\r`. -/
def isspace (c : Char) : Bool :=
  c.toNat == 32 || (9 ≤ c.toNat && c.toNat ≤ 13)

/-- The value of a digit character in bases up to 36 (`0-9`, `a-z`, `A-Z`);
every other character gets 36, which is a digit of no base. -/
def digitVal (c : Char) : Nat :=
  if 48 ≤ c.toNat ∧ c.toNat ≤ 57 then c.toNat - 48
  else if 97 ≤ c.toNat ∧ c.toNat ≤ 122 then c.toNat - 87
  else if 65 ≤ c.toNat ∧ c.toNat ≤ 90 then c.toNat - 55
  else 36

/-- Whether `c` is a digit of the given base. -/
def isDigitOf (base : Nat) (c : Char) : Bool := decide (digitVal c < base)

/-- The number a run of digits denotes in the given base, most significant digit first. -/
def digitsValue (base : Nat) (ds : CStr) : Nat :=
  ds.foldl (fun acc c => acc * base + digitVal c) 0

/-! ## libc: `strtoumax (nptr, &endp, 16)` -/

/-- Whether the text starts with `0x` or `0X`. -/
def startsWith0x (s : CStr) : Bool :=
  charAt s 0 == '0' && (charAt s 1 == 'x' || charAt s 1 == 'X')

/-- The call `strtoumax (nptr, &endp, 16)`: the returned value and the offset
`endp - nptr`.  White space is skipped, one sign and one `0x` prefix are
accepted, then the longest run of hexadecimal digits is read.  Without a
digit nothing is converted and `endp = nptr`, except that after `0x` the
`0` alone is the number and `endp` is at the `x`.  An out-of-range number
gives `UINTMAX_MAX`; a minus sign negates modulo `2^64`. -/
def strtoumax16 (nptr : CStr) : Nat × Nat :=
  let ws := (nptr.takeWhile isspace).length
  let s1 := nptr.drop ws
  let neg := charAt s1 0 == '-'
  let k1 := if charAt s1 0 == '-' || charAt s1 0 == '+' then 1 else 0
  let s2 := s1.drop k1
  let k2 := if startsWith0x s2 then 2 else 0
  let ds := (s2.drop k2).takeWhile (isDigitOf 16)
  if ds.isEmpty then
    if k2 = 2 then (0, ws + k1 + 1) else (0, 0)
  else
    let v := digitsValue 16 ds
    let endp := ws + k1 + k2 + ds.length
    if UINTMAX_MOD ≤ v then (UINTMAX_MOD - 1, endp)
    else if neg then ((UINTMAX_MOD - v) % UINTMAX_MOD, endp)
    else (v, endp)

/-! ## `std::ostream << std::hex << uintptr_t` -/

/-- The lower-case hexadecimal digit of a value below 16. -/
def hexDigit : Nat → Char
  | 0 => '0' | 1 => '1' | 2 => '2' | 3 => '3' | 4 => '4' | 5 => '5' | 6 => '6' | 7 => '7'
  | 8 => '8' | 9 => '9' | 10 => 'a' | 11 => 'b' | 12 => 'c' | 13 => 'd' | 14 => 'e' | _ => 'f'

/-- The digits of `n` in base 16, most significant first, in front of `acc`;
`fuel` bounds the number of digits. -/
def hexDigitsAux : Nat → Nat → CStr → CStr
  | 0, _, acc => acc
  | fuel + 1, n, acc =>
      if n < 16 then hexDigit n :: acc
      else hexDigitsAux fuel (n / 16) (hexDigit (n % 16) :: acc)

/-- What `os << std::hex << addr` writes for a 64-bit `uintptr_t`: the digits
of the value in base 16, lower case, without prefix and without leading
zeros (`0` for zero). -/
def format_hex (addr : Nat) : CStr := hexDigitsAux 16 (addr % UINTMAX_MOD) []

/-! ## libc: the two `sscanf` calls of `handle_address` -/

/-- The conversion `%ji` (`PRIiMAX`) of glibc `sscanf`: white space is
skipped; at the end of the input the conversion fails.  A sign is read, then
the base is taken from the text (`0x`/`0X`: 16, a leading `0`: 8, otherwise
10) and the longest run of digits of that base is read; the `x` of the prefix
is consumed even when no digit follows it.  With no digit at all (the leading
`0` counts as one) the conversion fails.  The number is converted as by
`strtoimax`, so it saturates at `INTMAX_MIN` and `INTMAX_MAX`, and is stored
in the `uintmax_t` variable as its two's complement.  The result is the
stored value and the number of characters consumed. -/
def scan_intmax (s : CStr) : Option (Nat × Nat) :=
  let ws := (s.takeWhile isspace).length
  let s1 := s.drop ws
  if s1.isEmpty then none
  else
    let neg := charAt s1 0 == '-'
    let k1 := if charAt s1 0 == '-' || charAt s1 0 == '+' then 1 else 0
    let s2 := s1.drop k1
    let zero := charAt s2 0 == '0'
    let hex := startsWith0x s2
    let base := if hex then 16 else if zero then 8 else 10
    let k2 := if hex then 2 else if zero then 1 else 0
    let ds := (s2.drop k2).takeWhile (isDigitOf base)
    if !zero && ds.isEmpty then none
    else
      let m := digitsValue base ds
      let v := if neg then (UINTMAX_MOD - min m (INTMAX_MAX + 1)) % UINTMAX_MOD
               else min m INTMAX_MAX
      some (v, ws + k1 + k2 + ds.length)

/-- What `sscanf (addr_str, "(%m[^)])%" PRIiMAX "%n", &name, &addr, &i)`
returns and which variables it assigns. -/
inductive SectionScan where
  /-- Returns `EOF`: the input ends before the first conversion is done. -/
  | eof
  /-- Returns 0: no `(` or an empty name. -/
  | mismatch
  /-- Returns 1: `name` is assigned, the `)` or the integer is missing. -/
  | name (name : CStr)
  /-- Returns 2: `name`, `addr` and `i` (by `%n`) are assigned. -/
  | full (name : CStr) (addr : Nat) (i : Nat)
  deriving DecidableEq, Repr

/-- The return value of the first `sscanf`. -/
def SectionScan.ret : SectionScan → Int
  | .eof => -1
  | .mismatch => 0
  | .name _ => 1
  | .full _ _ _ => 2

/-- The call `sscanf (addr_str, "(%m[^)])%" PRIiMAX "%n", &name, &addr, &i)`. -/
def sscanf_section (addr_str : CStr) : SectionScan :=
  if addr_str.isEmpty then .eof
  else if charAt addr_str 0 != '(' then .mismatch
  else
    let name := (addr_str.drop 1).takeWhile (fun c => c != ')')
    if name.isEmpty then (if (addr_str.drop 1).isEmpty then .eof else .mismatch)
    else if charAt addr_str (1 + name.length) != ')' then .name name
    else
      match scan_intmax (addr_str.drop (1 + name.length + 1)) with
      | none => .name name
      | some (v, k) => .full name v (1 + name.length + 1 + k)

/-- What `sscanf (addr_str, "%m[^-+]%n%" PRIiMAX "%n", &name, &i, &addr, &j)`
returns and which variables it assigns. -/
inductive SymbolScan where
  /-- Returns `EOF`: the input is empty. -/
  | eof
  /-- Returns 0: the text starts with `+` or `-`. -/
  | mismatch
  /-- Returns 1: `name` and `i` are assigned, no integer follows. -/
  | name (name : CStr) (i : Nat)
  /-- Returns 2: `name`, `i`, `addr` and `j` are assigned. -/
  | full (name : CStr) (i : Nat) (addr : Nat) (j : Nat)
  deriving DecidableEq, Repr

/-- The return value of the second `sscanf`. -/
def SymbolScan.ret : SymbolScan → Int
  | .eof => -1
  | .mismatch => 0
  | .name _ _ => 1
  | .full _ _ _ _ => 2

/-- The call `sscanf (addr_str, "%m[^-+]%n%" PRIiMAX "%n", &name, &i, &addr, &j)`. -/
def sscanf_symbol (addr_str : CStr) : SymbolScan :=
  if addr_str.isEmpty then .eof
  else
    let name := addr_str.takeWhile (fun c => c != '-' && c != '+')
    if name.isEmpty then .mismatch
    else
      match scan_intmax (addr_str.drop name.length) with
      | none => .name name name.length
      | some (v, k) => .full name name.length v (name.length + k)

/-! ## What libdwfl, libdw and libelf answer -/

/-- The fields of `GElf_Sym` the source reads. -/
structure GElf_Sym where
  /-- Type and binding; the type is the low four bits. -/
  st_info : Nat
  /-- Size of the object; 0 for no or unknown size. -/
  st_size : Nat
  deriving DecidableEq, Repr, Inhabited

/-- The macro `GELF_ST_TYPE (info)`: `info & 0xf`. -/
def GELF_ST_TYPE (info : Nat) : Nat := info % 16

/-- Symbol type `STT_FUNC`. -/
def STT_FUNC : Nat := 2
/-- Symbol type `STT_SECTION`. -/
def STT_SECTION : Nat := 3
/-- Symbol type `STT_FILE`. -/
def STT_FILE : Nat := 4
/-- Symbol type `STT_TLS`. -/
def STT_TLS : Nat := 6

/-- What `dwfl_module_getsym_info (mod, i, &sym, &value, ...)` gives for one
index of the symbol table: the returned name (`none` for a null pointer) and
the symbol and adjusted value it stores. -/
structure SymInfo where
  /-- The returned symbol name. -/
  name : Option CStr
  /-- The symbol stored through the third argument. -/
  sym : GElf_Sym
  /-- The address stored through the fourth argument. -/
  value : Nat
  deriving DecidableEq, Repr

/-- The fields of `GElf_Shdr` the source reads. -/
structure GElf_Shdr where
  /-- Address of the section. -/
  sh_addr : Nat
  /-- Size of the section in bytes. -/
  sh_size : Nat
  deriving DecidableEq, Repr

/-- One slot of the relocation-section list of a module:
`dwfl_module_relocation_info (mod, i, &shndx)` and the header
`gelf_getshdr (elf_getscn (dwfl_module_getelf (mod, &shdr_bias), shndx), ..)`
finds for that slot. -/
structure RelocInfo where
  /-- The section name, `none` for a null pointer. -/
  scn : Option CStr
  /-- The section header, `none` for a null pointer. -/
  shdr : Option GElf_Shdr
  deriving DecidableEq, Repr

/-- A DWARF attribute as far as `dwarf_formstring` reads it. -/
structure Dwarf_Attribute where
  /-- The value of `dwarf_formstring`, `none` for a null pointer. -/
  formstring : Option CStr
  deriving DecidableEq, Repr

/-- A debug-information entry of a scope list. -/
structure Dwarf_Die where
  /-- The value of `dwarf_tag`. -/
  tag : Nat
  /-- The value of `dwarf_attr_integrate (die, DW_AT_MIPS_linkage_name, ..)`. -/
  MIPS_linkage_name : Option Dwarf_Attribute
  /-- The value of `dwarf_attr_integrate (die, DW_AT_linkage_name, ..)`. -/
  linkage_name : Option Dwarf_Attribute
  /-- The value of `dwarf_diename`. -/
  diename : Option CStr
  deriving DecidableEq, Repr

/-- Tag `DW_TAG_subprogram`. -/
def DW_TAG_subprogram : Nat := 0x2e
/-- Tag `DW_TAG_inlined_subroutine`. -/
def DW_TAG_inlined_subroutine : Nat := 0x1d

/-- A line-table entry (`Dwfl_Line*`, not null). -/
structure Dwfl_Line where
  /-- The address `dwfl_lineinfo` stores through its second argument. -/
  addr : Nat
  /-- The source file name `dwfl_lineinfo` returns, `none` for a null pointer. -/
  src : Option CStr
  /-- Whether `dwfl_dwarf_line` returns a non-null pointer. -/
  has_dwarf_line : Bool
  deriving DecidableEq, Repr

/-- A loaded module (`Dwfl_Module*`, not null). -/
structure Dwfl_Module where
  /-- The symbol table: entry `i` is what `dwfl_module_getsym_info` gives for
  index `i`, and `dwfl_module_getsymtab` is the length (an error, -1, is the
  empty table: the loop of `find_symbol` does not run). -/
  symtab : List SymInfo
  /-- The relocation sections: `dwfl_module_relocations` is the length (an
  error, -1, is the empty list). -/
  relocs : List RelocInfo
  /-- The bias `dwfl_module_getelf` stores. -/
  shdr_bias : Nat
  /-- The byte `e_ident[EI_CLASS]` of the ELF header, `none` when
  `dwfl_module_getelf` or `gelf_getehdr` gives a null pointer. -/
  ei_class : Option Nat
  /-- The call `dwfl_module_addrinfo (mod, addr, &off, &s, ..)`: the name of
  the symbol the library picks for the address and the offset into it. -/
  addrinfo : Nat → Option (CStr × Nat)
  /-- The call `dwfl_module_addrname (mod, addr)`. -/
  addrname : Nat → Option CStr
  /-- The calls `dwfl_module_addrdie (mod, addr, &bias)` followed by
  `dwarf_getscopes (cudie, addr - bias, &scopes)`: the scope list, innermost
  first, of length `nscopes`; `none` when the count is -1. -/
  getscopes : Nat → Option (List Dwarf_Die)
  /-- The call `dwfl_module_getsrc (mod, addr)`. -/
  getsrc : Nat → Option Dwfl_Line

/-- The session `m_dwfl`. -/
structure Dwfl where
  /-- The loaded modules in the order `dwfl_getmodules` visits them. -/
  modules : List Dwfl_Module
  /-- The call `dwfl_addrmodule (dwfl, addr)`. -/
  addrmodule : Nat → Option Dwfl_Module

/-- Callback result `DWARF_CB_OK`. -/
def DWARF_CB_OK : Int := 0
/-- Callback result `DWARF_CB_ABORT`. -/
def DWARF_CB_ABORT : Int := 1

/-- The walk `dwfl_getmodules (dwfl, callback, arg, 0)`, started with
`offset = 0`: the callback is called for each module as long as it returns
`DWARF_CB_OK`.  When it returns another value the walk stops and a non-zero
offset to resume from is returned; after the last module 0 is returned.  The
result is the state of `*arg` and the returned offset. -/
def dwfl_getmodules {α : Type} (callback : Dwfl_Module → α → α × Int) :
    List Dwfl_Module → α → Nat → α × Int
  | [], arg, _ => (arg, 0)
  | m :: ms, arg, offset =>
      let r := callback m arg
      if r.2 ≠ DWARF_CB_OK then (r.1, (((offset + 1) * 4 + 1 : Nat) : Int))
      else dwfl_getmodules callback ms r.1 (offset + 1)

/-! ## The file-scope options and the members of `symbol_resolver` -/

/-- The file-scope `static` option variables, with their initial values. -/
structure Globals where
  /-- Option `-a`. -/
  print_addresses : Bool := false
  /-- Option `-s`. -/
  only_basenames : Bool := false
  /-- Option `-A`. -/
  use_comp_dir : Bool := false
  /-- Option `-F`. -/
  show_flags : Bool := false
  /-- Initialised to `true`. -/
  show_functions : Bool := true
  /-- Initialised to `true`. -/
  show_symbols : Bool := true
  /-- Initialised to `true`. -/
  show_symbol_sections : Bool := true
  /-- Option `-j NAME`; null by default. -/
  just_section : Option CStr := none
  /-- Option `-i`. -/
  show_inlines : Bool := false
  /-- Initialised to `true`. -/
  demangle : Bool := true
  /-- Initialised to `true`. -/
  pretty : Bool := true
  deriving DecidableEq, Repr

/-- The options after the constructor has run: it parses the fixed command
line `exe -e <fname>`, which sets none of the options of `parse_opt`. -/
def constructed : Globals := {}

/-- The mutable state a call can change: the member `demangle_buffer` and the
function-local `static int width` of `get_addr_width`. -/
structure State where
  /-- The text in `demangle_buffer`, `none` for a null pointer. -/
  demangle_buffer : Option CStr := none
  /-- The cached address width, 0 until it is computed. -/
  width : Nat := 0
  deriving DecidableEq, Repr

/-- Everything a call of `handle_address` reads besides its arguments. -/
structure Env where
  /-- The option variables. -/
  globals : Globals
  /-- The member `m_dwfl`. -/
  m_dwfl : Dwfl
  /-- The demangler `__cxa_demangle`: the demangled text when `status` is 0,
  `none` otherwise. -/
  cxa_demangle : CStr → Option CStr

/-- The exceptions `handle_address` throws (`std::runtime_error` with the
message named), the failure of its `assert`, and the overrun of the message
buffer. -/
inductive Error where
  /-- Message "Section syntax requires exactly one module". -/
  | one_module_required
  /-- Message "offset %#jx lies outside section '%s'". -/
  | outside_section (offset : Nat) (scn : CStr)
  /-- Message "cannot find symbol '%s'". -/
  | cannot_find_symbol (name : CStr)
  /-- Message "offset %#jx lies outside contents of '%s'". -/
  | outside_contents (offset : Nat) (name : CStr)
  /-- The check `assert (info)` fails. -/
  | assert_info
  /-- No exception: `sprintf` writes the message past the end of
  `char str[100]`, which is undefined behaviour. -/
  | sprintf_overrun
  deriving DecidableEq, Repr

/-- What `%#jx` prints for a `uintmax_t`: `0` for zero, otherwise `0x` and
the hexadecimal digits in lower case. -/
def format_alt_hex (v : Nat) : CStr :=
  if v % UINTMAX_MOD = 0 then ['0'] else '0' :: 'x' :: format_hex v

/-- The text `sprintf (str, "offset %#jx lies outside section '%s'", addr, scn)`
produces. -/
def message_outside_section (addr : Nat) (scn : CStr) : CStr :=
  "offset ".toList ++ format_alt_hex addr ++ " lies outside section '".toList ++ scn
    ++ "'".toList

/-- The text `sprintf (str, "cannot find symbol '%s'", name)` produces. -/
def message_cannot_find_symbol (name : CStr) : CStr :=
  "cannot find symbol '".toList ++ name ++ "'".toList

/-- The text
`sprintf (str, "offset %#jx lies outside contents of '%s'", addr, name)`
produces. -/
def message_outside_contents (addr : Nat) (name : CStr) : CStr :=
  "offset ".toList ++ format_alt_hex addr ++ " lies outside contents of '".toList ++ name
    ++ "'".toList

/-- The size of the buffer `char str[100]`. -/
def STR_SIZE : Nat := 100

/-- The statements `char str[100]; sprintf (str, ...); throw
std::runtime_error (str);` for the message text `msg`: `sprintf` writes the
text and a terminating NUL, so the exception `e` is thrown when
`length + 1 ≤ 100`; a longer text overruns the buffer. -/
def sprintf_throw (msg : CStr) (e : Error) : Except Error (Bool × Nat) :=
  if msg.length + 1 ≤ STR_SIZE then .error e else .error .sprintf_overrun

/-- A normal return of `handle_address`: the returned `int`, the output
string `symbol` and the state afterwards. -/
structure Ret where
  /-- The returned value. -/
  code : Int
  /-- The string `symbol` on return. -/
  symbol : CStr
  /-- The state on return. -/
  state : State
  deriving DecidableEq, Repr

/-! ## `symbol_resolver.cpp` -/

/-- The method `symbol_resolver::symname`: a name that starts with `_Z` is
given to the demangler when `demangle` is set; on success the result becomes
both the returned name and the new `demangle_buffer`.  The result is the
returned name and the state afterwards. -/
def symname (env : Env) (st : State) (name : CStr) : CStr × State :=
  if env.globals.demangle && charAt name 0 == '_' && charAt name 1 == 'Z' then
    match env.cxa_demangle name with
    | some dsymname => (dsymname, { st with demangle_buffer := some dsymname })
    | none => (name, st)
  else (name, st)

/-- The function `get_diename`: the string of the `DW_AT_MIPS_linkage_name`
attribute or, when that attribute is absent, of `DW_AT_linkage_name`; when
that gives no string, `dwarf_diename`, and `"??"` when that is null too. -/
def get_diename (die : Dwarf_Die) : Option CStr :=
  let attr := match die.MIPS_linkage_name with
    | some a => some a
    | none => die.linkage_name
  let name := match attr with
    | some a => a.formstring
    | none => none
  match name with
  | some n => some n
  | none =>
    match die.diename with
    | some n => some n
    | none => some ['?', '?']

/-- The loop of `print_dwarf_function` over `scopes[i], ..., scopes[nscopes-1]`
and the value of `res` at `done`.  The call-site attributes read in the
non-pretty case only feed output that is commented out. -/
def print_dwarf_function_loop (pretty : Bool) : List Dwarf_Die → Bool
  | [] => false
  | die :: rest =>
      if die.tag = DW_TAG_subprogram then
        match get_diename die with
        | none => false
        | some _ => true
      else if die.tag = DW_TAG_inlined_subroutine then
        match get_diename die with
        | none => false
        | some _ => if pretty then true else print_dwarf_function_loop pretty rest
      else print_dwarf_function_loop pretty rest

/-- The scope list of an address in a possibly null module: with a null
module `dwfl_module_addrdie` gives a null CU and `dwarf_getscopes` -1. -/
def getscopes (mod : Option Dwfl_Module) (addr : Nat) : Option (List Dwarf_Die) :=
  match mod with
  | none => none
  | some m => m.getscopes addr

/-- The method `symbol_resolver::print_dwarf_function`. -/
def print_dwarf_function (env : Env) (mod : Option Dwfl_Module) (addr : Nat) : Bool :=
  match getscopes mod addr with
  | none => false
  | some scopes =>
      if scopes.length ≤ 0 then false
      else print_dwarf_function_loop env.globals.pretty scopes

/-- The method `symbol_resolver::print_addrsym`: the string `symbol` and the
state afterwards.  With a symbol name from `dwfl_module_addrinfo` the name
goes through `symname` and is assigned to `symbol` when the offset is 0; the
section lookups of both branches only feed output that is commented out. -/
def print_addrsym (env : Env) (st : State) (mod : Option Dwfl_Module) (addr : Nat)
    (symbol : CStr) : CStr × State :=
  match (match mod with | none => none | some m => m.addrinfo addr) with
  | none => (symbol, st)
  | some (name, off) =>
      let r := symname env st name
      if off = 0 then (r.1, r.2) else (symbol, r.2)

/-- The callback `see_one_module`: `*result` afterwards and the returned value. -/
def see_one_module (mod : Dwfl_Module) (result : Option Dwfl_Module) :
    Option Dwfl_Module × Int :=
  match result with
  | some r => (some r, DWARF_CB_ABORT)
  | none => (some mod, DWARF_CB_OK)

/-- The array `arg` of `find_symbol`: `arg[0]` is the name looked for and is
set to null when it is found, `arg[1]` and `arg[2]` point to the caller's
`sym` and `value`. -/
structure FindArg where
  /-- The pointer `arg[0]`. -/
  looking_for : Option CStr
  /-- The caller's `sym`. -/
  sym : GElf_Sym
  /-- The caller's `value`. -/
  value : Nat
  deriving DecidableEq, Repr

/-- The loop of `find_symbol` over the entries `i, i+1, ..` of the symbol
table; each `dwfl_module_getsym_info` stores into `sym` and `value`. -/
def find_symbol_loop : List SymInfo → FindArg → FindArg × Int
  | [], arg => (arg, DWARF_CB_OK)
  | e :: es, arg =>
      let arg1 := { arg with sym := e.sym, value := e.value }
      match e.name with
      | none => find_symbol_loop es arg1
      | some symbol_name =>
          if symbol_name.isEmpty then find_symbol_loop es arg1
          else if GELF_ST_TYPE e.sym.st_info = STT_SECTION
              ∨ GELF_ST_TYPE e.sym.st_info = STT_FILE
              ∨ GELF_ST_TYPE e.sym.st_info = STT_TLS then find_symbol_loop es arg1
          else if some symbol_name = arg.looking_for then
            ({ arg1 with looking_for := none }, DWARF_CB_ABORT)
          else find_symbol_loop es arg1

/-- The callback `find_symbol`: the loop starts at index 1. -/
def find_symbol (mod : Dwfl_Module) (arg : FindArg) : FindArg × Int :=
  find_symbol_loop (mod.symtab.drop 1) arg

/-- The loop of `adjust_to_section` over the relocation sections
`i, i+1, ..`: the returned `bool` and `*addr` afterwards, or the exception. -/
def adjust_to_section_loop (name : CStr) (shdr_bias : Nat) (addr : Nat) :
    List RelocInfo → Except Error (Bool × Nat)
  | [] => .ok (false, addr)
  | r :: rs =>
      match r.scn with
      | none => .ok (false, addr)
      | some scn =>
          if scn = name then
            match r.shdr with
            | none => .ok (false, addr)
            | some shdr =>
                if addr ≥ shdr.sh_size then
                  sprintf_throw (message_outside_section addr scn) (.outside_section addr scn)
                else .ok (true, (addr + (shdr.sh_addr + shdr_bias)) % UINTMAX_MOD)
          else adjust_to_section_loop name shdr_bias addr rs

/-- The method `symbol_resolver::adjust_to_section`: the returned `bool` and
`*addr` afterwards, or the exception. -/
def adjust_to_section (dwfl : Dwfl) (name : CStr) (addr : Nat) : Except Error (Bool × Nat) :=
  let r := dwfl_getmodules see_one_module dwfl.modules none 0
  if r.2 ≠ 0 ∨ r.1.isNone then .error .one_module_required
  else
    match r.1 with
    | none => .error .one_module_required
    | some mod => adjust_to_section_loop name mod.shdr_bias addr mod.relocs

/-- ELF class `ELFCLASS32`. -/
def ELFCLASS32 : Nat := 1

/-- The function `get_addr_width`: the value of its `static int width`
afterwards (which is also what it returns). -/
def get_addr_width (mod : Option Dwfl_Module) (width : Nat) : Nat :=
  let width1 :=
    if width = 0 then
      match mod with
      | none => width
      | some m =>
          match m.ei_class with
          | none => width
          | some c => if c = ELFCLASS32 then 8 else 16
    else width
  if width1 = 0 then 16 else width1

/-- The label `case 2` of the `switch` in `handle_address`, reached with the
name, the offset `addr` and the index `j` the second `sscanf` ends at:
`parsed` and `addr` at the end of the block, or the exception.  The local
`value` starts at 0; the local `sym` is not initialised in the source and
starts at the default value here, it is read only after the scan has found
the name and so has stored into it. -/
def symbol_form (dwfl : Dwfl) (addr_str : CStr) (parsed : Bool) (name : CStr)
    (addr : Nat) (j : Nat) : Except Error (Bool × Nat) :=
  if charAt addr_str j != '\x00' then .ok (parsed, addr)
  else
    let arg := (dwfl_getmodules find_symbol dwfl.modules
      { looking_for := some name, sym := default, value := 0 } 0).1
    match arg.looking_for with
    | some _ => sprintf_throw (message_cannot_find_symbol name) (.cannot_find_symbol name)
    | none =>
        if arg.sym.st_size ≠ 0 ∧ addr ≥ arg.sym.st_size then
          sprintf_throw (message_outside_contents addr name) (.outside_contents addr name)
        else .ok (true, (addr + arg.value) % UINTMAX_MOD)

/-- The `if` before the `switch` in `handle_address`: the first `sscanf` and,
when it converts both items up to the end of the text, `adjust_to_section`.
The result is `parsed` and `addr` afterwards, or the exception. -/
def section_form (dwfl : Dwfl) (addr_str : CStr) (addr : Nat) : Except Error (Bool × Nat) :=
  match sscanf_section addr_str with
  | .full name a i =>
      if charAt addr_str i == '\x00' then adjust_to_section dwfl name a
      else .ok (false, a)
  | _ => .ok (false, addr)

/-- The block of `handle_address` that is entered when `strtoumax` does not
consume the whole text: the section form, then the `switch` on the second
`sscanf`.  The result is `parsed` and `addr` at the end of the block, or the
exception. -/
def handle_address_forms (dwfl : Dwfl) (addr_str : CStr) (addr : Nat) :
    Except Error (Bool × Nat) :=
  match section_form dwfl addr_str addr with
  | .error e => .error e
  | .ok (parsed, addr1) =>
      match sscanf_symbol addr_str with
      | .name name i => symbol_form dwfl addr_str parsed name 0 i
      | .full name _ a j => symbol_form dwfl addr_str parsed name a j
      | _ => .ok (parsed, addr1)

/-- The part of `handle_address` after the address is known, from
`dwfl_addrmodule` to the final `return 0`. -/
def handle_address_lookup (env : Env) (st : State) (addr : Nat) (symbol : CStr) :
    Except Error Ret :=
  let g := env.globals
  let mod := env.m_dwfl.addrmodule addr
  let st1 : State :=
    if g.print_addresses then { st with width := get_addr_width mod st.width } else st
  let r1 : CStr × State :=
    if g.show_functions && (!print_dwarf_function env mod addr && !g.show_symbols) then
      match (match mod with | none => none | some m => m.addrname addr) with
      | some name => symname env st1 name
      | none => (['?', '?'], st1)
    else (symbol, st1)
  let r2 : CStr × State :=
    if g.show_symbols then print_addrsym env r1.2 mod addr r1.1 else r1
  let line := match mod with | none => none | some m => m.getsrc addr
  let addr1 := match line with | none => addr | some l => l.addr
  let asserted : Bool :=
    match line with
    | none => true
    | some l => !(l.src.isSome && g.show_flags) || l.has_dwarf_line
  if !asserted then .error .assert_info
  else if g.show_inlines && (getscopes mod addr1).isNone then
    .ok { code := 1, symbol := r2.1, state := r2.2 }
  else .ok { code := 0, symbol := r2.1, state := r2.2 }

/-- The method `symbol_resolver::handle_address`. -/
def handle_address (env : Env) (st : State) (addr_str : CStr) (symbol : CStr) :
    Except Error Ret :=
  let r := strtoumax16 addr_str
  if r.2 = 0 ∨ charAt addr_str r.2 ≠ '\x00' then
    match handle_address_forms env.m_dwfl addr_str r.1 with
    | .error e => .error e
    | .ok (parsed, addr) =>
        if !parsed then .ok { code := 1, symbol := symbol, state := st }
        else handle_address_lookup env st addr symbol
  else
    match env.globals.just_section with
    | none => handle_address_lookup env st r.1 symbol
    | some just_section =>
        match adjust_to_section env.m_dwfl just_section r.1 with
        | .error e => .error e
        | .ok (adjusted, addr) =>
            if !adjusted then .ok { code := 1, symbol := symbol, state := st }
            else handle_address_lookup env st addr symbol

/-- The method `symbol_resolver::resolve`. -/
def resolve (env : Env) (st : State) (addr : Nat) (symbol : CStr) : Except Error Ret :=
  handle_address env st (format_hex addr) symbol

/-! ## The notions the properties are stated with -/

/-- The text is a complete base-16 literal: `strtoumax` converts something
and stops at the terminating NUL.  This is the negation of the condition
`endp == addr_str || *endp != '\0'` of `handle_address`. -/
def literal_form (addr_str : CStr) : Prop :=
  ¬ ((strtoumax16 addr_str).2 = 0 ∨ charAt addr_str (strtoumax16 addr_str).2 ≠ '\x00')

instance (addr_str : CStr) : Decidable (literal_form addr_str) := by
  unfold literal_form; infer_instance

/-- The section form `(name)integer` consumes the text to its end. -/
def section_form_consumes (addr_str : CStr) : Prop :=
  ∃ name a i, sscanf_section addr_str = .full name a i ∧ charAt addr_str i = '\x00'

/-- The symbol form `name[+-integer]` consumes the text to its end. -/
def symbol_form_consumes (addr_str : CStr) : Prop :=
  (∃ name i, sscanf_symbol addr_str = .name name i ∧ charAt addr_str i = '\x00')
  ∨ (∃ name i a j, sscanf_symbol addr_str = .full name i a j ∧ charAt addr_str j = '\x00')

/-- An entry the symbol lookup may select for the queried name: its name is
the queried name and its kind is not Section, File or TLS. -/
def eligible (name : CStr) (e : SymInfo) : Bool :=
  decide (e.name = some name) && !(decide (GELF_ST_TYPE e.sym.st_info = STT_SECTION)
    || decide (GELF_ST_TYPE e.sym.st_info = STT_FILE)
    || decide (GELF_ST_TYPE e.sym.st_info = STT_TLS))

/-- All symbol-table entries in module-registration order, then ascending
index. -/
def all_entries (dwfl : Dwfl) : List SymInfo :=
  dwfl.modules.flatMap (fun m => m.symtab)

/-- The entries from index 1 on, in module-registration order, then ascending
index: index 0 of an ELF symbol table is the reserved undefined symbol. -/
def scanned_entries (dwfl : Dwfl) : List SymInfo :=
  dwfl.modules.flatMap (fun m => m.symtab.drop 1)

/-- The state of `arg` after `dwfl_getmodules (m_dwfl, &find_symbol, arg, 0)`
in `handle_address`. -/
def symbol_scan (dwfl : Dwfl) (name : CStr) : FindArg :=
  (dwfl_getmodules find_symbol dwfl.modules
    { looking_for := some name, sym := default, value := 0 } 0).1

/-- A scope at which the walk of `print_dwarf_function` stops: a Subprogram,
or, in pretty mode, an InlinedSubroutine. -/
def stops_walk (pretty : Bool) (die : Dwarf_Die) : Bool :=
  decide (die.tag = DW_TAG_subprogram)
    || (pretty && decide (die.tag = DW_TAG_inlined_subroutine))

/-! ## Example data: one module with the function `add` in `[0x1000, 0x1020)`, called from `main` -/

/-- The reserved entry at index 0 of a symbol table. -/
def null_entry : SymInfo :=
  { name := some [], sym := { st_info := 0, st_size := 0 }, value := 0 }

/-- The function symbol `add`: global `STT_FUNC`, value `0x1000`, size `0x20`. -/
def add_entry : SymInfo :=
  { name := some "add".toList, sym := { st_info := 0x12, st_size := 0x20 }, value := 0x1000 }

/-- The function symbol `main`: global `STT_FUNC`, value `0x1020`, size `0x30`. -/
def main_entry : SymInfo :=
  { name := some "main".toList, sym := { st_info := 0x12, st_size := 0x30 }, value := 0x1020 }

/-- A module with the section `.text` at `0x1000` (size `0x100`, bias 0) and
the functions `add` and `main`; the library reports each for the addresses of
its body and has no debug information. -/
def example_module : Dwfl_Module :=
  { symtab := [null_entry, add_entry, main_entry]
    relocs := [{ scn := some ".text".toList, shdr := some { sh_addr := 0x1000, sh_size := 0x100 } }]
    shdr_bias := 0
    ei_class := some 2
    addrinfo := fun a =>
      if 0x1000 ≤ a ∧ a < 0x1020 then some ("add".toList, a - 0x1000)
      else if 0x1020 ≤ a ∧ a < 0x1050 then some ("main".toList, a - 0x1020)
      else none
    addrname := fun a =>
      if 0x1000 ≤ a ∧ a < 0x1020 then some "add".toList
      else if 0x1020 ≤ a ∧ a < 0x1050 then some "main".toList
      else none
    getscopes := fun _ => none
    getsrc := fun _ => none }

/-- A session with `example_module` loaded at `[0x1000, 0x1100)`. -/
def example_dwfl : Dwfl :=
  { modules := [example_module]
    addrmodule := fun a => if 0x1000 ≤ a ∧ a < 0x1100 then some example_module else none }

/-- The resolver as constructed on `example_dwfl`; no name demangles. -/
def example_env : Env :=
  { globals := constructed, m_dwfl := example_dwfl, cxa_demangle := fun _ => none }

/-- A module whose only relocation section `.empty` has size 0. -/
def empty_section_module : Dwfl_Module :=
  { example_module with
    relocs := [{ scn := some ".empty".toList, shdr := some { sh_addr := 0x3000, sh_size := 0 } }] }

/-- A session with `empty_section_module` as its only module. -/
def empty_section_dwfl : Dwfl :=
  { modules := [empty_section_module], addrmodule := fun _ => none }

/-- Tag `DW_TAG_lexical_block`. -/
def DW_TAG_lexical_block : Nat := 0x0b

/-- A lexical block without a name. -/
def block_die : Dwarf_Die :=
  { tag := DW_TAG_lexical_block, MIPS_linkage_name := none, linkage_name := none,
    diename := none }

/-- An inlined call of `add`, named by `DW_AT_name` only. -/
def inlined_die : Dwarf_Die :=
  { tag := DW_TAG_inlined_subroutine, MIPS_linkage_name := none, linkage_name := none,
    diename := some "add".toList }

/-- The function `main` with the linkage name `main`. -/
def subprogram_die : Dwarf_Die :=
  { tag := DW_TAG_subprogram, MIPS_linkage_name := none,
    linkage_name := some { formstring := some "main".toList },
    diename := some "main".toList }

/-- A resolver like `example_env` whose demangler knows `_Z3addii`. -/
def demangling_env : Env :=
  { example_env with
    cxa_demangle := fun n => if n = "_Z3addii".toList then some "add(int, int)".toList else none }

/-- A symbol name of 62 characters. -/
def long_name : CStr := List.replicate 62 'g'

/-- A function symbol with the name `long_name`, value `0x2000`, size `0x20`. -/
def long_entry : SymInfo :=
  { name := some long_name, sym := { st_info := 0x12, st_size := 0x20 }, value := 0x2000 }

/-- The example module with `long_entry` as its only named symbol. -/
def long_name_module : Dwfl_Module :=
  { example_module with symtab := [null_entry, long_entry] }

/-- A session with `long_name_module` as its only module. -/
def long_name_dwfl : Dwfl :=
  { modules := [long_name_module], addrmodule := fun _ => none }

/-- The resolver as constructed on `long_name_dwfl`. -/
def long_name_env : Env :=
  { globals := constructed, m_dwfl := long_name_dwfl, cxa_demangle := fun _ => none }

/-- A module whose symbol table holds `main` at index 0 and nothing else. -/
def index0_module : Dwfl_Module :=
  { example_module with symtab := [main_entry] }

/-- A session with `index0_module` as its only module. -/
def index0_dwfl : Dwfl :=
  { modules := [index0_module], addrmodule := fun _ => none }

/-- The resolver as constructed on `index0_dwfl`. -/
def index0_env : Env :=
  { globals := constructed, m_dwfl := index0_dwfl, cxa_demangle := fun _ => none }

/-! ## The message buffer -/

theorem sprintf_throw_fits (msg : CStr) (e : Error) (h : msg.length < 100) :
    sprintf_throw msg e = .error e := by
  unfold sprintf_throw STR_SIZE
  rw [if_pos (by omega)]

theorem sprintf_throw_error (msg : CStr) (e : Error) :
    sprintf_throw msg e = .error e ∨ sprintf_throw msg e = .error .sprintf_overrun := by
  unfold sprintf_throw
  split
  · exact Or.inl rfl
  · exact Or.inr rfl

theorem message_cannot_find_symbol_length (name : CStr) :
    (message_cannot_find_symbol name).length = name.length + 21 := by
  simp only [message_cannot_find_symbol, List.length_append]
  have h1 : "cannot find symbol '".toList.length = 20 := rfl
  have h2 : "'".toList.length = 1 := rfl
  omega

/-! ## Hexadecimal formatting and reading back -/

theorem digitVal_hexDigit (d : Nat) (h : d < 16) : digitVal (hexDigit d) = d := by
  interval_cases d <;> rfl

theorem isDigitOf_hexDigit (d : Nat) (h : d < 16) : isDigitOf 16 (hexDigit d) = true := by
  simp only [isDigitOf, decide_eq_true_eq]
  rw [digitVal_hexDigit _ h]; exact h

theorem hexdigit_facts (c : Char) (h : isDigitOf 16 c = true) :
    isspace c = false ∧ c ≠ '-' ∧ c ≠ '+' ∧ c ≠ 'x' ∧ c ≠ 'X' ∧ c ≠ '\x00' := by
  simp only [isDigitOf, decide_eq_true_eq] at h
  refine ⟨?_, ?_, ?_, ?_, ?_, ?_⟩
  · unfold digitVal at h
    simp only [isspace, Bool.or_eq_false_iff, beq_eq_false_iff_ne, ne_eq, Bool.and_eq_false_imp,
      decide_eq_true_eq, decide_eq_false_iff_not]
    split_ifs at h <;> omega
  all_goals
    rintro rfl
    revert h
    decide

theorem hexDigitsAux_acc (fuel n : Nat) (acc : CStr) :
    hexDigitsAux fuel n acc = hexDigitsAux fuel n [] ++ acc := by
  induction fuel generalizing n acc with
  | zero => simp [hexDigitsAux]
  | succ k ih =>
    simp only [hexDigitsAux]
    split
    · simp
    · rw [ih (n / 16) (hexDigit (n % 16) :: acc), ih (n / 16) [hexDigit (n % 16)]]
      simp

theorem digitsValue_snoc (base : Nat) (ds : CStr) (c : Char) :
    digitsValue base (ds ++ [c]) = digitsValue base ds * base + digitVal c := by
  simp [digitsValue, List.foldl_append]

theorem hexDigitsAux_spec (fuel n : Nat) (hfuel : 0 < fuel) (hn : n < 16 ^ fuel) :
    hexDigitsAux fuel n [] ≠ []
    ∧ (∀ c ∈ hexDigitsAux fuel n [], isDigitOf 16 c = true)
    ∧ digitsValue 16 (hexDigitsAux fuel n []) = n := by
  induction fuel generalizing n with
  | zero => omega
  | succ k ih =>
    simp only [hexDigitsAux]
    by_cases h16 : n < 16
    · simp only [h16, if_true]
      refine ⟨by simp, ?_, ?_⟩
      · intro c hc
        simp only [List.mem_singleton] at hc
        subst hc
        exact isDigitOf_hexDigit n h16
      · simp [digitsValue, digitVal_hexDigit n h16]
    · simp only [h16, if_false]
      have hk : 0 < k := by
        rcases Nat.eq_zero_or_pos k with h0 | h0
        · subst h0; simp at hn; omega
        · exact h0
      have hdiv : n / 16 < 16 ^ k := by
        rw [Nat.div_lt_iff_lt_mul (by norm_num)]
        rw [pow_succ] at hn; exact hn
      obtain ⟨hne, hall, hval⟩ := ih (n / 16) hk hdiv
      have hmod : n % 16 < 16 := Nat.mod_lt _ (by norm_num)
      rw [hexDigitsAux_acc]
      refine ⟨by simp, ?_, ?_⟩
      · intro c hc
        rcases List.mem_append.mp hc with hc | hc
        · exact hall c hc
        · simp only [List.mem_singleton] at hc
          subst hc
          exact isDigitOf_hexDigit _ hmod
      · rw [digitsValue_snoc, hval, digitVal_hexDigit _ hmod]
        omega

theorem takeWhile_all (p : Char → Bool) (l : CStr) (h : ∀ c ∈ l, p c = true) :
    l.takeWhile p = l := by
  induction l with
  | nil => rfl
  | cons a t ih =>
    have ha : p a = true := h a (List.mem_cons_self _ _)
    simp only [List.takeWhile, ha]
    rw [ih (fun c hc => h c (List.mem_cons_of_mem _ hc))]

theorem strtoumax16_digits (l : CStr) (hne : l ≠ [])
    (hall : ∀ c ∈ l, isDigitOf 16 c = true) (hv : digitsValue 16 l < UINTMAX_MOD) :
    strtoumax16 l = (digitsValue 16 l, l.length) := by
  obtain ⟨c, t, rfl⟩ := List.exists_cons_of_ne_nil hne
  obtain ⟨hsp, hminus, hplus, -, -, -⟩ := hexdigit_facts c (hall c (List.mem_cons_self _ _))
  have h0x : startsWith0x (c :: t) = false := by
    cases t with
    | nil =>
      simp [startsWith0x, charAt]
    | cons d u =>
      obtain ⟨-, -, -, hx, hX, -⟩ :=
        hexdigit_facts d (hall d (List.mem_cons_of_mem _ (List.mem_cons_self _ _)))
      simp [startsWith0x, charAt, hx, hX]
  have htw : List.takeWhile (isDigitOf 16) (c :: t) = c :: t := takeWhile_all _ _ hall
  have hv2 : ¬ UINTMAX_MOD ≤ digitsValue 16 (c :: t) := Nat.not_le.mpr hv
  simp [strtoumax16, List.takeWhile, hsp, charAt, hminus, hplus, h0x, htw, hv2]

theorem charAt_length (l : CStr) : charAt l l.length = '\x00' := by
  simp [charAt, List.getD]

theorem strtoumax16_format_hex (a : Nat) (ha : a < UINTMAX_MOD) :
    strtoumax16 (format_hex a) = (a, (format_hex a).length) := by
  have hn : a % UINTMAX_MOD < 16 ^ 16 := by rw [Nat.mod_eq_of_lt ha]; exact ha
  obtain ⟨hne, hall, hval⟩ := hexDigitsAux_spec 16 (a % UINTMAX_MOD) (by norm_num) hn
  have h := strtoumax16_digits (format_hex a) hne hall (by
    show digitsValue 16 (hexDigitsAux 16 (a % UINTMAX_MOD) []) < UINTMAX_MOD
    rw [hval]; exact Nat.mod_lt _ (by norm_num [UINTMAX_MOD]))
  rw [h]
  show (digitsValue 16 (hexDigitsAux 16 (a % UINTMAX_MOD) []), _) = _
  rw [hval, Nat.mod_eq_of_lt ha]

theorem format_hex_ne_nil (a : Nat) : format_hex a ≠ [] :=
  (hexDigitsAux_spec 16 (a % UINTMAX_MOD) (by norm_num)
    (Nat.mod_lt _ (by norm_num [UINTMAX_MOD]))).1

/-! ## Claims -/

/-- C1: for every `uintptr_t` value `a`, the text `resolve` formats with
`std::hex` is read back by `strtoumax (.., 16)` completely and as `a`: the
end pointer is at the terminating NUL, so the condition that sends
`handle_address` to the section and symbol forms is false, and with no forced
section `resolve` is the lookup of the address `a` itself. -/
theorem resolve_hex_roundtrip (a : Nat) (ha : a < UINTMAX_MOD) :
    strtoumax16 (format_hex a) = (a, (format_hex a).length)
    ∧ ¬ ((strtoumax16 (format_hex a)).2 = 0
          ∨ charAt (format_hex a) (strtoumax16 (format_hex a)).2 ≠ '\x00')
    ∧ ∀ (env : Env) (st : State) (symbol : CStr), env.globals.just_section = none →
        resolve env st a symbol = handle_address_lookup env st a symbol := by
  have h := strtoumax16_format_hex a ha
  have hlen : (format_hex a).length ≠ 0 := by
    intro h0
    exact format_hex_ne_nil a (List.length_eq_zero.mp h0)
  have hguard : ¬ ((strtoumax16 (format_hex a)).2 = 0
      ∨ charAt (format_hex a) (strtoumax16 (format_hex a)).2 ≠ '\x00') := by
    rw [h]
    simp [charAt_length, hlen]
  refine ⟨h, hguard, ?_⟩
  intro env st symbol hjs
  unfold resolve handle_address
  simp only [hguard, if_false, hjs]
  rw [h]

/-- Witness for C1 at the address `0x1010`. -/
theorem resolve_hex_roundtrip_witness :
    0x1010 < UINTMAX_MOD ∧ strtoumax16 (format_hex 0x1010) = (0x1010, 4) :=
  ⟨by decide, (resolve_hex_roundtrip 0x1010 (by decide)).1⟩

/-! ## The lookup under the options the constructor leaves -/

theorem handle_address_of_literal (env : Env) (st : State) (addr_str symbol : CStr)
    (hjs : env.globals.just_section = none) (hlit : literal_form addr_str) :
    handle_address env st addr_str symbol
      = handle_address_lookup env st (strtoumax16 addr_str).1 symbol := by
  unfold literal_form at hlit
  unfold handle_address
  simp only [hlit, if_false, hjs]

theorem handle_address_lookup_constructed (env : Env) (st : State) (addr : Nat) (symbol : CStr)
    (hcfg : env.globals = constructed) :
    handle_address_lookup env st addr symbol
      = .ok { code := 0
              symbol := (print_addrsym env st (env.m_dwfl.addrmodule addr) addr symbol).1
              state := (print_addrsym env st (env.m_dwfl.addrmodule addr) addr symbol).2 } := by
  unfold handle_address_lookup
  simp only [hcfg, constructed]
  cases hmod : env.m_dwfl.addrmodule addr with
  | none => simp
  | some m =>
    cases hline : m.getsrc addr with
    | none => simp [hline]
    | some l => simp [hline]

/-- C2 (counterexample): the example module holds the function `add` with
value `0x1000` and size `0x20`, and the library reports `add` with offset
`0x10` for the address `0x1010`; `handle_address` on `0x1010` returns 0 but
leaves the output string as the caller passed it (empty), it does not set it
to `add`. -/
theorem handle_address_interior_counterexample :
    add_entry ∈ example_module.symtab
    ∧ GELF_ST_TYPE add_entry.sym.st_info = STT_FUNC
    ∧ add_entry.value ≤ 0x1010 ∧ 0x1010 < add_entry.value + add_entry.sym.st_size
    ∧ example_module.addrinfo 0x1010 = some ("add".toList, 0x10)
    ∧ literal_form "0x1010".toList
    ∧ handle_address example_env {} "0x1010".toList []
        = .ok { code := 0, symbol := [], state := {} }
    ∧ handle_address example_env {} "0x1010".toList []
        ≠ .ok { code := 0, symbol := "add".toList, state := {} } := by
  refine ⟨by decide, by decide, by decide, by decide, by rfl, by decide, by rfl, ?_⟩
  rw [show handle_address example_env {} "0x1010".toList []
        = .ok { code := 0, symbol := [], state := {} } from rfl]
  intro h
  injection h with h
  injection h with _ h _
  cases h

/-- C2 (amended): when a module holds a function symbol `f` with value `v`
and the library reports `f` for the literal address `a` with the offset
`a - v` (`v ≤ a < v + size`), `handle_address` as constructed returns 0; the
output string is set to the demangled name of `f` when `a = v` and is left
as the caller passed it when `a > v`. -/
theorem handle_address_literal_in_symbol (env : Env) (st : State) (addr_str symbol : CStr)
    (m : Dwfl_Module) (f : SymInfo) (fname : CStr)
    (hcfg : env.globals = constructed)
    (hlit : literal_form addr_str)
    (hmod : env.m_dwfl.addrmodule (strtoumax16 addr_str).1 = some m)
    (_hmem : f ∈ m.symtab) (_hname : f.name = some fname)
    (_hfunc : GELF_ST_TYPE f.sym.st_info = STT_FUNC)
    (hlo : f.value ≤ (strtoumax16 addr_str).1)
    (_hhi : (strtoumax16 addr_str).1 < f.value + f.sym.st_size)
    (hinfo : m.addrinfo (strtoumax16 addr_str).1
              = some (fname, (strtoumax16 addr_str).1 - f.value)) :
    handle_address env st addr_str symbol
      = .ok { code := 0
              symbol := if (strtoumax16 addr_str).1 = f.value
                          then (symname env st fname).1 else symbol
              state := (symname env st fname).2 } := by
  have hjs : env.globals.just_section = none := by rw [hcfg]; rfl
  rw [handle_address_of_literal env st addr_str symbol hjs hlit,
    handle_address_lookup_constructed env st _ symbol hcfg, hmod]
  unfold print_addrsym
  simp only [hinfo]
  by_cases heq : (strtoumax16 addr_str).1 = f.value
  · simp [heq]
  · have hne : (strtoumax16 addr_str).1 - f.value ≠ 0 := by omega
    simp [heq, hne]

/-- Witness for C2 (amended): the start address `0x1000` of `add` in the
example module. -/
theorem handle_address_literal_in_symbol_witness :
    handle_address example_env {} "0x1000".toList []
      = .ok { code := 0, symbol := "add".toList, state := {} } :=
  handle_address_literal_in_symbol example_env {} "0x1000".toList [] example_module
    add_entry "add".toList rfl (by decide) rfl (by decide) rfl (by decide) (by decide)
    (by decide) rfl

/-- C3 (the code at the failing input): with the one example module loaded,
whose section `.text` is at `0x1000` with bias 0 and size `0x100`, the text
`(.text)+16` takes the section form and `adjust_to_section` resolves it to
`0x1010`; the `switch` that follows reads the same text as the symbol
`(.text)` with offset 16 and throws "cannot find symbol", so the lookup of
`0x1010` that the literal `0x1010` gets is never reached. -/
theorem handle_address_section_text_eval :
    example_dwfl.modules.length = 1
    ∧ sscanf_section "(.text)+16".toList = .full ".text".toList 16 10
    ∧ section_form example_dwfl "(.text)+16".toList 0 = .ok (true, 0x1010)
    ∧ sscanf_symbol "(.text)+16".toList = .full "(.text)".toList 7 16 10
    ∧ handle_address example_env {} "(.text)+16".toList []
        = .error (.cannot_find_symbol "(.text)".toList)
    ∧ handle_address example_env {} "0x1010".toList []
        = handle_address_lookup example_env {} 0x1010 [] := by
  refine ⟨rfl, rfl, rfl, rfl, rfl, rfl⟩

/-! ## `adjust_to_section` -/

/-- C6: `adjust_to_section` throws "Section syntax requires exactly one
module" exactly when the number of loaded modules is not one, for every
section name and offset; the decision is taken from the module list alone,
before the section list is read. -/
theorem adjust_to_section_one_module (dwfl : Dwfl) (name : CStr) (addr : Nat) :
    adjust_to_section dwfl name addr = .error .one_module_required
      ↔ (dwfl.modules.length = 0 ∨ 2 ≤ dwfl.modules.length) := by
  have key : adjust_to_section dwfl name addr = .error .one_module_required
      ↔ dwfl.modules.length ≠ 1 := by
    unfold adjust_to_section
    cases hm : dwfl.modules with
    | nil => simp [dwfl_getmodules]
    | cons m t =>
      cases t with
      | nil =>
        simp only [dwfl_getmodules, see_one_module, DWARF_CB_OK]
        simp only [ne_eq, not_true_eq_false, if_false, Option.isNone_some, Bool.false_eq_true,
          or_self, List.length_singleton, iff_false]
        generalize m.relocs = rs
        induction rs with
        | nil => simp [adjust_to_section_loop]
        | cons r rs ih =>
          unfold adjust_to_section_loop
          cases r.scn with
          | none => simp
          | some scn =>
            by_cases hn : scn = name
            · subst hn
              cases r.shdr with
              | none => simp
              | some shdr =>
                by_cases hs : addr ≥ shdr.sh_size
                · rcases sprintf_throw_error (message_outside_section addr scn)
                    (.outside_section addr scn) with h | h <;> simp [hs, h]
                · simp [hs]
            · simpa [hn] using ih
      | cons m2 t2 =>
        simp [dwfl_getmodules, see_one_module, DWARF_CB_OK, DWARF_CB_ABORT]
  rw [key]
  omega

theorem adjust_to_section_loop_skip (name : CStr) (bias addr : Nat) (pre rest : List RelocInfo)
    (hpre : ∀ r ∈ pre, ∃ n, r.scn = some n ∧ n ≠ name) :
    adjust_to_section_loop name bias addr (pre ++ rest)
      = adjust_to_section_loop name bias addr rest := by
  induction pre with
  | nil => rfl
  | cons r rs ih =>
    obtain ⟨n, hn, hne⟩ := hpre r (List.mem_cons_self _ _)
    rw [List.cons_append, adjust_to_section_loop]
    simp only [hn, hne, if_false]
    exact ih (fun q hq => hpre q (List.mem_cons_of_mem _ hq))

theorem adjust_to_section_single (dwfl : Dwfl) (m : Dwfl_Module) (name : CStr) (addr : Nat)
    (hmods : dwfl.modules = [m]) :
    adjust_to_section dwfl name addr
      = adjust_to_section_loop name m.shdr_bias addr m.relocs := by
  unfold adjust_to_section
  simp [hmods, dwfl_getmodules, see_one_module, DWARF_CB_OK]

/-- C5 (counterexample): the only module has the section `.empty` of size
0; `adjust_to_section` rejects the offset 0 into it with the out-of-range
error, the bound check is not disabled. -/
theorem adjust_to_section_size_zero_counterexample :
    empty_section_dwfl.modules.length = 1
    ∧ empty_section_module.relocs
        = [{ scn := some ".empty".toList, shdr := some { sh_addr := 0x3000, sh_size := 0 } }]
    ∧ adjust_to_section empty_section_dwfl ".empty".toList 0
        = .error (.outside_section 0 ".empty".toList) := by
  refine ⟨rfl, rfl, rfl⟩

/-- C5 (amended): with one module loaded, on the first section whose name
matches, `adjust_to_section` rejects the offset with the out-of-range error
exactly when the offset is at least the section size, whatever the size (so
every offset into a section of size 0 is rejected); an offset below the size
is accepted and becomes section address + load bias + offset modulo `2^64`.
The rejection is stated for a message that fits the buffer `str[100]`;
nothing is stated for a longer one. -/
theorem adjust_to_section_bound (dwfl : Dwfl) (m : Dwfl_Module) (name : CStr) (offset : Nat)
    (pre post : List RelocInfo) (shdr : GElf_Shdr)
    (hmods : dwfl.modules = [m])
    (hrel : m.relocs = pre ++ { scn := some name, shdr := some shdr } :: post)
    (hpre : ∀ r ∈ pre, ∃ n, r.scn = some n ∧ n ≠ name)
    (hfit : shdr.sh_size ≤ offset → (message_outside_section offset name).length < 100) :
    adjust_to_section dwfl name offset
      = if shdr.sh_size ≤ offset then .error (.outside_section offset name)
        else .ok (true, (offset + (shdr.sh_addr + m.shdr_bias)) % UINTMAX_MOD) := by
  rw [adjust_to_section_single dwfl m name offset hmods, hrel,
    adjust_to_section_loop_skip name m.shdr_bias offset pre _ hpre]
  unfold adjust_to_section_loop
  by_cases hs : shdr.sh_size ≤ offset
  · simp [hs, sprintf_throw_fits _ _ (hfit hs)]
  · simp [hs]

/-- Witness for C5 (amended): offset 16 into `.text` of the example module is
accepted, offset `0x100`, the size of `.text`, is rejected. -/
theorem adjust_to_section_bound_witness :
    adjust_to_section example_dwfl ".text".toList 16 = .ok (true, 0x1010)
    ∧ adjust_to_section example_dwfl ".text".toList 0x100
        = .error (.outside_section 0x100 ".text".toList) :=
  ⟨adjust_to_section_bound example_dwfl example_module ".text".toList 16 [] []
      { sh_addr := 0x1000, sh_size := 0x100 } rfl rfl (by simp) (by decide),
   adjust_to_section_bound example_dwfl example_module ".text".toList 0x100 [] []
      { sh_addr := 0x1000, sh_size := 0x100 } rfl rfl (by simp) (by decide)⟩

/-! ## The symbol scan -/

theorem eligible_iff (name : CStr) (e : SymInfo) :
    eligible name e = true ↔
      e.name = some name ∧ GELF_ST_TYPE e.sym.st_info ≠ STT_SECTION
        ∧ GELF_ST_TYPE e.sym.st_info ≠ STT_FILE ∧ GELF_ST_TYPE e.sym.st_info ≠ STT_TLS := by
  simp [eligible, and_assoc]

theorem find_symbol_loop_spec (name : CStr) (hname : name ≠ []) (es : List SymInfo)
    (arg : FindArg) (harg : arg.looking_for = some name) :
    (∀ e, es.find? (eligible name) = some e →
        find_symbol_loop es arg
          = ({ looking_for := none, sym := e.sym, value := e.value }, DWARF_CB_ABORT))
    ∧ (es.find? (eligible name) = none →
        (find_symbol_loop es arg).1.looking_for = some name
          ∧ (find_symbol_loop es arg).2 = DWARF_CB_OK) := by
  induction es generalizing arg with
  | nil => simp [find_symbol_loop, harg]
  | cons e es ih =>
    obtain ⟨lf, s0, v0⟩ := arg
    simp only at harg
    subst harg
    have ih1 := ih { looking_for := some name, sym := e.sym, value := e.value } rfl
    rw [List.find?_cons, find_symbol_loop]
    by_cases hel : eligible name e = true
    · obtain ⟨hn, h1, h2, h3⟩ := (eligible_iff name e).mp hel
      have hemp : name.isEmpty = false := by
        cases name with
        | nil => exact absurd rfl hname
        | cons _ _ => rfl
      simp [hel, hn, h1, h2, h3, hemp]
    · have hel2 : eligible name e = false := by simpa using hel
      simp only [hel2]
      cases hn : e.name with
      | none => simpa using ih1
      | some nm =>
        by_cases hemp : nm.isEmpty = true
        · simpa [hemp] using ih1
        · by_cases hty : GELF_ST_TYPE e.sym.st_info = STT_SECTION
              ∨ GELF_ST_TYPE e.sym.st_info = STT_FILE ∨ GELF_ST_TYPE e.sym.st_info = STT_TLS
          · simpa [hemp, hty] using ih1
          · have hnm : nm ≠ name := by
              intro heq
              apply hel
              rw [eligible_iff]
              subst heq
              exact ⟨hn, fun h => hty (Or.inl h), fun h => hty (Or.inr (Or.inl h)),
                fun h => hty (Or.inr (Or.inr h))⟩
            simp only [hemp, hty, Option.some.injEq, hnm, if_false, Bool.false_eq_true]
            exact ih1

theorem dwfl_getmodules_find_symbol_spec (name : CStr) (hname : name ≠ [])
    (ms : List Dwfl_Module) (arg : FindArg) (harg : arg.looking_for = some name)
    (offset : Nat) :
    (∀ e, (ms.flatMap (fun m => m.symtab.drop 1)).find? (eligible name) = some e →
        (dwfl_getmodules find_symbol ms arg offset).1
          = { looking_for := none, sym := e.sym, value := e.value })
    ∧ ((ms.flatMap (fun m => m.symtab.drop 1)).find? (eligible name) = none →
        (dwfl_getmodules find_symbol ms arg offset).1.looking_for = some name) := by
  induction ms generalizing arg offset with
  | nil => simp [dwfl_getmodules, harg]
  | cons m ms ih =>
    obtain ⟨hfound, hnone⟩ := find_symbol_loop_spec name hname (m.symtab.drop 1) arg harg
    rw [List.flatMap_cons, List.find?_append, dwfl_getmodules]
    cases hf : (m.symtab.drop 1).find? (eligible name) with
    | some e =>
      have h := hfound e hf
      simp only [find_symbol, h, DWARF_CB_ABORT, DWARF_CB_OK]
      simp
    | none =>
      obtain ⟨h1, h2⟩ := hnone hf
      simp only [find_symbol, h2, ne_eq, not_true_eq_false, if_false, Option.none_or]
      exact ih _ h1 (offset + 1)

theorem symbol_scan_spec (dwfl : Dwfl) (name : CStr) (hname : name ≠ []) :
    (∀ e, (scanned_entries dwfl).find? (eligible name) = some e →
        symbol_scan dwfl name = { looking_for := none, sym := e.sym, value := e.value })
    ∧ ((scanned_entries dwfl).find? (eligible name) = none →
        (symbol_scan dwfl name).looking_for = some name) :=
  dwfl_getmodules_find_symbol_spec name hname dwfl.modules _ rfl 0

theorem symbol_form_found (dwfl : Dwfl) (addr_str : CStr) (parsed : Bool) (name : CStr)
    (addr j : Nat) (e : SymInfo) (hname : name ≠ [])
    (hend : charAt addr_str j = '\x00')
    (hsel : (scanned_entries dwfl).find? (eligible name) = some e) :
    symbol_form dwfl addr_str parsed name addr j
      = if e.sym.st_size ≠ 0 ∧ e.sym.st_size ≤ addr then
          sprintf_throw (message_outside_contents addr name) (.outside_contents addr name)
        else .ok (true, (addr + e.value) % UINTMAX_MOD) := by
  have h := (symbol_scan_spec dwfl name hname).1 e hsel
  unfold symbol_scan at h
  unfold symbol_form
  simp only [hend, bne_self_eq_false, Bool.false_eq_true, if_false, h]

theorem symbol_form_found_fits (dwfl : Dwfl) (addr_str : CStr) (parsed : Bool) (name : CStr)
    (addr j : Nat) (e : SymInfo) (hname : name ≠ [])
    (hend : charAt addr_str j = '\x00')
    (hsel : (scanned_entries dwfl).find? (eligible name) = some e)
    (hfit : (e.sym.st_size ≠ 0 ∧ e.sym.st_size ≤ addr) →
      (message_outside_contents addr name).length < 100) :
    symbol_form dwfl addr_str parsed name addr j
      = if e.sym.st_size ≠ 0 ∧ e.sym.st_size ≤ addr then .error (.outside_contents addr name)
        else .ok (true, (addr + e.value) % UINTMAX_MOD) := by
  rw [symbol_form_found dwfl addr_str parsed name addr j e hname hend hsel]
  by_cases hb : e.sym.st_size ≠ 0 ∧ e.sym.st_size ≤ addr
  · rw [if_pos hb, if_pos hb, sprintf_throw_fits _ _ (hfit hb)]
  · rw [if_neg hb, if_neg hb]

theorem symbol_form_not_found (dwfl : Dwfl) (addr_str : CStr) (parsed : Bool) (name : CStr)
    (addr j : Nat) (hname : name ≠ [])
    (hend : charAt addr_str j = '\x00')
    (hsel : (scanned_entries dwfl).find? (eligible name) = none)
    (hfit : name.length ≤ 78) :
    symbol_form dwfl addr_str parsed name addr j = .error (.cannot_find_symbol name) := by
  have h := (symbol_scan_spec dwfl name hname).2 hsel
  unfold symbol_scan at h
  have hlen : (message_cannot_find_symbol name).length < 100 := by
    rw [message_cannot_find_symbol_length]; omega
  unfold symbol_form
  simp only [hend, bne_self_eq_false, Bool.false_eq_true, if_false, h,
    sprintf_throw_fits _ _ hlen]

theorem find_drop_one (name : CStr) (l : List SymInfo)
    (h : ∀ e, l.head? = some e → e.name = none ∨ e.name = some []) (hname : name ≠ []) :
    l.find? (eligible name) = (l.drop 1).find? (eligible name) := by
  cases l with
  | nil => rfl
  | cons a t =>
    have ha : eligible name a = false := by
      cases hel : eligible name a with
      | false => rfl
      | true =>
        obtain ⟨hn, -⟩ := (eligible_iff name a).mp hel
        rcases h a rfl with h0 | h0
        · rw [h0] at hn; cases hn
        · rw [h0] at hn
          injection hn with hn
          exact absurd hn.symm hname
    simp [List.find?_cons, ha]

theorem flatMap_find_drop_one (ms : List Dwfl_Module) (name : CStr) (hname : name ≠ [])
    (h : ∀ m ∈ ms, ∀ e, m.symtab.head? = some e → e.name = none ∨ e.name = some []) :
    (ms.flatMap (fun m => m.symtab)).find? (eligible name)
      = (ms.flatMap (fun m => m.symtab.drop 1)).find? (eligible name) := by
  induction ms with
  | nil => rfl
  | cons m ms ih =>
    rw [List.flatMap_cons, List.flatMap_cons, List.find?_append, List.find?_append,
      find_drop_one name m.symtab (h m (List.mem_cons_self _ _)) hname,
      ih (fun q hq => h q (List.mem_cons_of_mem _ hq))]

/-- C7 (counterexample): the only symbol table holds the function `main` at
index 0.  It is the first entry of the table whose name equals the queried
name and whose kind is not Section, File or TLS, yet the scan, which starts
at index 1, does not select it: `arg[0]` stays set and `handle_address` on
`main` throws "cannot find symbol". -/
theorem symbol_scan_index0_counterexample :
    (all_entries index0_dwfl).find? (eligible "main".toList) = some main_entry
    ∧ (symbol_scan index0_dwfl "main".toList).looking_for = some "main".toList
    ∧ handle_address index0_env {} "main".toList []
        = .error (.cannot_find_symbol "main".toList) := by
  refine ⟨rfl, rfl, rfl⟩

/-- C7 (amended): the symbol scan of `handle_address` (`find_symbol` driven
over all modules by `dwfl_getmodules`) for a non-empty name reads the entries
from index 1 on.  When these entries, in module order and then ascending
index, split as `pre ++ e :: post` with `e` eligible (name equal to the
queried name, kind not Section, File or TLS) and no entry of `pre` eligible,
the scan ends with `arg[0]` null and `sym`, `value` those of `e`; an entry of
kind Section, File or TLS is never the selected one; the symbol form then
checks the offset against the size of `e` and adds the value of `e`.  When no
entry from index 1 on is eligible, `arg[0]` stays set and the symbol form
throws "cannot find symbol".  The two exceptions are stated for messages
that fit the buffer `str[100]`; nothing is stated for longer ones. -/
theorem symbol_scan_first_eligible (dwfl : Dwfl) (name : CStr) (hname : name ≠ []) :
    (∀ pre e post, scanned_entries dwfl = pre ++ e :: post →
        (∀ x ∈ pre, eligible name x = false) → eligible name e = true →
        symbol_scan dwfl name = { looking_for := none, sym := e.sym, value := e.value }
        ∧ e.name = some name
        ∧ GELF_ST_TYPE e.sym.st_info ≠ STT_SECTION
        ∧ GELF_ST_TYPE e.sym.st_info ≠ STT_FILE
        ∧ GELF_ST_TYPE e.sym.st_info ≠ STT_TLS
        ∧ ∀ addr_str parsed addr j, charAt addr_str j = '\x00' →
            ((e.sym.st_size ≠ 0 ∧ e.sym.st_size ≤ addr) →
              (message_outside_contents addr name).length < 100) →
            symbol_form dwfl addr_str parsed name addr j
              = if e.sym.st_size ≠ 0 ∧ e.sym.st_size ≤ addr
                  then .error (.outside_contents addr name)
                  else .ok (true, (addr + e.value) % UINTMAX_MOD))
    ∧ ((∀ x ∈ scanned_entries dwfl, eligible name x = false) →
        (symbol_scan dwfl name).looking_for = some name
        ∧ ∀ addr_str parsed addr j, charAt addr_str j = '\x00' → name.length ≤ 78 →
            symbol_form dwfl addr_str parsed name addr j
              = .error (.cannot_find_symbol name)) := by
  refine ⟨?_, ?_⟩
  · intro pre e post hsplit hpre hel
    have hfind : (scanned_entries dwfl).find? (eligible name) = some e := by
      rw [List.find?_eq_some]
      exact ⟨hel, pre, post, hsplit, fun a ha => by simp [hpre a ha]⟩
    obtain ⟨hn, h1, h2, h3⟩ := (eligible_iff name e).mp hel
    refine ⟨(symbol_scan_spec dwfl name hname).1 e hfind, hn, h1, h2, h3, ?_⟩
    intro addr_str parsed addr j hend hfit
    exact symbol_form_found_fits dwfl addr_str parsed name addr j e hname hend hfind hfit
  · intro hnone
    have hfind : (scanned_entries dwfl).find? (eligible name) = none := by
      rw [List.find?_eq_none]
      intro x hx
      simp [hnone x hx]
    refine ⟨(symbol_scan_spec dwfl name hname).2 hfind, ?_⟩
    intro addr_str parsed addr j hend hfit
    exact symbol_form_not_found dwfl addr_str parsed name addr j hname hend hfind hfit

/-- Witness for C7 (amended): the query `add` on the example session selects
the entry `add` at index 1, after the reserved entry at index 0 and before
`main`. -/
theorem symbol_scan_first_eligible_witness :
    "add".toList ≠ []
    ∧ symbol_scan example_dwfl "add".toList
        = { looking_for := none, sym := add_entry.sym, value := 0x1000 } :=
  ⟨by decide,
   ((symbol_scan_first_eligible example_dwfl "add".toList (by decide)).1
      [] add_entry [main_entry] rfl (by simp) rfl).1⟩

/-! ## The section and symbol forms in `handle_address` -/

theorem sscanf_symbol_full_ne (s name : CStr) (i a j : Nat)
    (h : sscanf_symbol s = .full name i a j) : name ≠ [] := by
  unfold sscanf_symbol at h
  by_cases h1 : s.isEmpty = true
  · simp [h1] at h
  · by_cases h2 : (List.takeWhile (fun c => c != '-' && c != '+') s).isEmpty = true
    · simp [h1, h2] at h
    · simp only [h1, h2, Bool.false_eq_true, if_false] at h
      cases hs : scan_intmax
          (List.drop (List.takeWhile (fun c => c != '-' && c != '+') s).length s) with
      | none => rw [hs] at h; cases h
      | some q =>
        rw [hs] at h
        simp only [SymbolScan.full.injEq] at h
        intro hn
        rw [← h.1] at hn
        simp [hn] at h2

theorem handle_address_not_literal (env : Env) (st : State) (addr_str symbol : CStr)
    (hnlit : ¬ literal_form addr_str) :
    handle_address env st addr_str symbol
      = match handle_address_forms env.m_dwfl addr_str (strtoumax16 addr_str).1 with
        | .error e => .error e
        | .ok (parsed, addr) =>
            if !parsed then .ok { code := 1, symbol := symbol, state := st }
            else handle_address_lookup env st addr symbol := by
  unfold literal_form at hnlit
  simp only [not_not] at hnlit
  unfold handle_address
  simp only [hnlit, if_true]

theorem handle_address_forms_full (dwfl : Dwfl) (addr_str name : CStr) (a0 i offset j : Nat)
    (p : Bool) (a1 : Nat)
    (hsec : section_form dwfl addr_str a0 = .ok (p, a1))
    (hscan : sscanf_symbol addr_str = .full name i offset j) :
    handle_address_forms dwfl addr_str a0 = symbol_form dwfl addr_str p name offset j := by
  unfold handle_address_forms
  simp only [hsec, hscan]

theorem handle_address_forms_name (dwfl : Dwfl) (addr_str name : CStr) (a0 i : Nat)
    (p : Bool) (a1 : Nat)
    (hsec : section_form dwfl addr_str a0 = .ok (p, a1))
    (hscan : sscanf_symbol addr_str = .name name i) :
    handle_address_forms dwfl addr_str a0 = symbol_form dwfl addr_str p name 0 i := by
  unfold handle_address_forms
  simp only [hsec, hscan]

/-- The symbol form `name+N` / `name-N` with a message that fits the buffer:
when the text is not a complete base-16 literal, the section attempt before
it did not throw, the second `sscanf` converts the name and the offset up to
the end of the text and the scan finds the first eligible entry `e`,
`handle_address` throws the out-of-range error exactly when the size of `e`
is not 0 and the offset, as an unsigned 64-bit value, is at least that size;
otherwise it continues with the lookup of the address value + offset modulo
`2^64`. -/
theorem handle_address_symbol_offset_fits (env : Env) (st : State)
    (addr_str symbol name : CStr)
    (i offset j : Nat) (p : Bool) (a1 : Nat) (e : SymInfo)
    (hnlit : ¬ literal_form addr_str)
    (hsec : section_form env.m_dwfl addr_str (strtoumax16 addr_str).1 = .ok (p, a1))
    (hscan : sscanf_symbol addr_str = .full name i offset j)
    (hend : charAt addr_str j = '\x00')
    (hsel : (scanned_entries env.m_dwfl).find? (eligible name) = some e)
    (hfit : (e.sym.st_size ≠ 0 ∧ e.sym.st_size ≤ offset) →
      (message_outside_contents offset name).length < 100) :
    handle_address env st addr_str symbol
      = if e.sym.st_size ≠ 0 ∧ e.sym.st_size ≤ offset
          then .error (.outside_contents offset name)
          else handle_address_lookup env st ((offset + e.value) % UINTMAX_MOD) symbol := by
  have hname := sscanf_symbol_full_ne addr_str name i offset j hscan
  rw [handle_address_not_literal env st addr_str symbol hnlit,
    handle_address_forms_full env.m_dwfl addr_str name _ i offset j p a1 hsec hscan,
    symbol_form_found_fits env.m_dwfl addr_str p name offset j e hname hend hsel hfit]
  by_cases hb : e.sym.st_size ≠ 0 ∧ e.sym.st_size ≤ offset
  · rw [if_pos hb, if_pos hb]
  · rw [if_neg hb, if_neg hb]
    simp

/-- C4 (the code at the failing input): the symbol `long_name` has 62
characters, size `0x20` and is the entry the scan finds; the text
`long_name+0x30` takes the symbol form with the offset `0x30`, which is not
below the size.  The message "offset 0x30 lies outside contents of '...'"
has 101 characters, so `sprintf` writes 102 bytes into `char str[100]`: the
buffer is overrun before any exception is thrown.  With the short name `add`
the same offset is rejected with the out-of-range error. -/
theorem handle_address_long_name_overrun :
    long_name.length = 62
    ∧ ¬ literal_form (long_name ++ "+0x30".toList)
    ∧ sscanf_symbol (long_name ++ "+0x30".toList) = .full long_name 62 0x30 67
    ∧ (scanned_entries long_name_dwfl).find? (eligible long_name) = some long_entry
    ∧ long_entry.sym.st_size = 0x20
    ∧ (message_outside_contents 0x30 long_name).length + 1 = 102
    ∧ handle_address long_name_env {} (long_name ++ "+0x30".toList) []
        = .error .sprintf_overrun
    ∧ handle_address example_env {} "add+0x30".toList []
        = .error (.outside_contents 0x30 "add".toList) := by
  refine ⟨rfl, by decide, rfl, rfl, rfl, rfl, rfl, rfl⟩

theorem scan_intmax_nil : scan_intmax [] = none := rfl

theorem sscanf_symbol_bare (name : CStr) (hne : name ≠ [])
    (hchars : ∀ c ∈ name, c ≠ '+' ∧ c ≠ '-') :
    sscanf_symbol name = .name name name.length := by
  have htw : List.takeWhile (fun c => c != '-' && c != '+') name = name := by
    apply takeWhile_all
    intro c hc
    obtain ⟨h1, h2⟩ := hchars c hc
    simp [h1, h2]
  have hemp : name.isEmpty = false := by
    cases name with
    | nil => exact absurd rfl hne
    | cons _ _ => rfl
  unfold sscanf_symbol
  simp only [hemp, htw, Bool.false_eq_true, if_false, List.drop_length, scan_intmax_nil]

/-- C8 (counterexample): `add` is a non-empty name without `+` and `-` that
names the eligible entry with value `0x1000`, but its three letters are
hexadecimal digits: `handle_address` on `add` takes the literal form and
looks up the address `0xadd`, not the symbol form with the address `0x1000`. -/
theorem bare_name_add_counterexample :
    "add".toList ≠ []
    ∧ (∀ c ∈ "add".toList, c ≠ '+' ∧ c ≠ '-')
    ∧ (scanned_entries example_dwfl).find? (eligible "add".toList) = some add_entry
    ∧ add_entry.value = 0x1000
    ∧ strtoumax16 "add".toList = (0xadd, 3)
    ∧ literal_form "add".toList
    ∧ handle_address example_env {} "add".toList []
        = handle_address_lookup example_env {} 0xadd []
    ∧ handle_address example_env {} "add".toList []
        ≠ handle_address_lookup example_env {} 0x1000 [] := by
  refine ⟨by decide, by decide, rfl, rfl, rfl, by decide, rfl, ?_⟩
  rw [show handle_address example_env {} "add".toList []
        = .ok { code := 0, symbol := [], state := {} } from rfl,
      show handle_address_lookup example_env {} 0x1000 []
        = .ok { code := 0, symbol := "add".toList, state := {} } from rfl]
  intro h
  injection h with h
  injection h with _ h _
  cases h

/-- C8 (amended): for every non-empty name without `+` and `-` that is not a
complete base-16 literal, on which the section attempt made first does not
throw, and that names an eligible entry with the 64-bit value `v` (the first
eligible entry of the scan), `handle_address` on the bare name takes the
symbol form with offset 0 and continues with the lookup of the address `v`. -/
theorem handle_address_bare_name (env : Env) (st : State) (name symbol : CStr)
    (p : Bool) (a1 : Nat) (e : SymInfo)
    (hne : name ≠ []) (hchars : ∀ c ∈ name, c ≠ '+' ∧ c ≠ '-')
    (hnlit : ¬ literal_form name)
    (hsec : section_form env.m_dwfl name (strtoumax16 name).1 = .ok (p, a1))
    (hsel : (scanned_entries env.m_dwfl).find? (eligible name) = some e)
    (hv : e.value < UINTMAX_MOD) :
    sscanf_symbol name = .name name name.length
    ∧ handle_address_forms env.m_dwfl name (strtoumax16 name).1 = .ok (true, e.value)
    ∧ handle_address env st name symbol = handle_address_lookup env st e.value symbol := by
  have hscan := sscanf_symbol_bare name hne hchars
  have hforms : handle_address_forms env.m_dwfl name (strtoumax16 name).1
      = .ok (true, e.value) := by
    rw [handle_address_forms_name env.m_dwfl name name _ name.length p a1 hsec hscan,
      symbol_form_found env.m_dwfl name p name 0 name.length e hne (charAt_length name) hsel]
    simp [Nat.mod_eq_of_lt hv]
  refine ⟨hscan, hforms, ?_⟩
  rw [handle_address_not_literal env st name symbol hnlit, hforms]
  simp

/-- Witness for C8 (amended): the bare name `main` on the example session. -/
theorem handle_address_bare_name_witness :
    handle_address example_env {} "main".toList []
      = handle_address_lookup example_env {} 0x1020 [] :=
  (handle_address_bare_name example_env {} "main".toList [] false 0 main_entry
    (by decide) (by decide) (by decide) rfl rfl (by decide)).2.2

theorem handle_address_forms_malformed (addr_str : CStr) (a0 : Nat)
    (hsec : ¬ section_form_consumes addr_str)
    (hsym : ¬ symbol_form_consumes addr_str) :
    ∃ a1, ∀ dwfl : Dwfl, handle_address_forms dwfl addr_str a0 = .ok (false, a1) := by
  unfold section_form_consumes at hsec
  unfold symbol_form_consumes at hsym
  have hs : ∃ a1, ∀ dwfl : Dwfl, section_form dwfl addr_str a0 = .ok (false, a1) := by
    unfold section_form
    cases h1 : sscanf_section addr_str with
    | eof => exact ⟨a0, fun _ => rfl⟩
    | mismatch => exact ⟨a0, fun _ => rfl⟩
    | name n => exact ⟨a0, fun _ => rfl⟩
    | full n a i =>
      have hc : charAt addr_str i ≠ '\x00' := fun hc => hsec ⟨n, a, i, h1, hc⟩
      exact ⟨a, fun _ => by simp [hc]⟩
  obtain ⟨a1, hs⟩ := hs
  unfold handle_address_forms
  cases h2 : sscanf_symbol addr_str with
  | eof => exact ⟨a1, fun dwfl => by simp [hs dwfl]⟩
  | mismatch => exact ⟨a1, fun dwfl => by simp [hs dwfl]⟩
  | name n i =>
    have hc : charAt addr_str i ≠ '\x00' := fun hc => hsym (Or.inl ⟨n, i, h2, hc⟩)
    exact ⟨0, fun dwfl => by simp [hs dwfl, symbol_form, hc]⟩
  | full n i a j =>
    have hc : charAt addr_str j ≠ '\x00' := fun hc => hsym (Or.inr ⟨n, i, a, j, h2, hc⟩)
    exact ⟨a, fun dwfl => by simp [hs dwfl, symbol_form, hc]⟩

/-- C9: for every text that none of the three forms consumes entirely (not a
complete base-16 literal, the section form does not reach the end of the
text, the symbol form does not reach the end of the text), `handle_address`
returns 1 and leaves the output string and the state as they were, whatever
the options and the session; the block that tries the forms ends with
`parsed = false` and an address that does not depend on the session, so no
module, section or symbol is looked up. -/
theorem handle_address_malformed (addr_str : CStr)
    (hlit : ¬ literal_form addr_str)
    (hsec : ¬ section_form_consumes addr_str)
    (hsym : ¬ symbol_form_consumes addr_str) :
    (∀ (env : Env) (st : State) (symbol : CStr),
        handle_address env st addr_str symbol
          = .ok { code := 1, symbol := symbol, state := st })
    ∧ ∃ a1, ∀ dwfl : Dwfl,
        handle_address_forms dwfl addr_str (strtoumax16 addr_str).1 = .ok (false, a1) := by
  have hforms := handle_address_forms_malformed addr_str (strtoumax16 addr_str).1 hsec hsym
  refine ⟨?_, hforms⟩
  intro env st symbol
  obtain ⟨a1, h⟩ := hforms
  rw [handle_address_not_literal env st addr_str symbol hlit, h env.m_dwfl]
  simp

theorem not_section_form_consumes_of (s : CStr) (r : SectionScan) (h : sscanf_section s = r)
    (hr : ∀ n a i, r = .full n a i → charAt s i ≠ '\x00') : ¬ section_form_consumes s := by
  rintro ⟨n, a, i, h1, h2⟩
  exact hr n a i (h ▸ h1) h2

theorem not_symbol_form_consumes_of (s : CStr) (r : SymbolScan) (h : sscanf_symbol s = r)
    (hn : ∀ n i, r = .name n i → charAt s i ≠ '\x00')
    (hf : ∀ n i a j, r = .full n i a j → charAt s j ≠ '\x00') : ¬ symbol_form_consumes s := by
  rintro (⟨n, i, h1, h2⟩ | ⟨n, i, a, j, h1, h2⟩)
  · exact hn n i (h ▸ h1) h2
  · exact hf n i a j (h ▸ h1) h2

/-- Witness for C9: the texts `foo+12zz`, `foo+` and the empty text on the
example session. -/
theorem handle_address_malformed_witness :
    handle_address example_env {} "foo+12zz".toList "old".toList
        = .ok { code := 1, symbol := "old".toList, state := {} }
    ∧ handle_address example_env {} "foo+".toList "old".toList
        = .ok { code := 1, symbol := "old".toList, state := {} }
    ∧ handle_address example_env {} [] "old".toList
        = .ok { code := 1, symbol := "old".toList, state := {} } :=
  ⟨(handle_address_malformed "foo+12zz".toList (by decide)
      (not_section_form_consumes_of _ .mismatch rfl (by simp))
      (not_symbol_form_consumes_of _ (.full "foo".toList 3 12 6) rfl (by simp)
        (by
          intro n i a j h
          cases h
          decide))).1 example_env {} "old".toList,
   (handle_address_malformed "foo+".toList (by decide)
      (not_section_form_consumes_of _ .mismatch rfl (by simp))
      (not_symbol_form_consumes_of _ (.name "foo".toList 3) rfl
        (by
          intro n i h
          cases h
          decide)
        (by simp))).1 example_env {} "old".toList,
   (handle_address_malformed [] (by decide)
      (not_section_form_consumes_of _ .eof rfl (by simp))
      (not_symbol_form_consumes_of _ .eof rfl (by simp) (by simp))).1
      example_env {} "old".toList⟩

/-- C10: for every literal address, `handle_address` under the options the
constructor leaves (no forced section, `show_inlines` and `show_flags` off)
returns 0 and throws nothing, whatever the session answers for the address
(no module, no debug information, no symbol, no line entry); when
`dwfl_module_addrinfo` finds no symbol for the address, or no module holds
it, the output string and the state are left exactly as the caller passed
them. -/
theorem handle_address_literal_soft (env : Env) (st : State) (addr_str symbol : CStr)
    (hcfg : env.globals = constructed) (hlit : literal_form addr_str) :
    ∃ r, handle_address env st addr_str symbol = .ok r ∧ r.code = 0
      ∧ ((match env.m_dwfl.addrmodule (strtoumax16 addr_str).1 with
          | none => none
          | some m => m.addrinfo (strtoumax16 addr_str).1) = none →
            r.symbol = symbol ∧ r.state = st) := by
  have hjs : env.globals.just_section = none := by rw [hcfg]; rfl
  rw [handle_address_of_literal env st addr_str symbol hjs hlit,
    handle_address_lookup_constructed env st _ symbol hcfg]
  refine ⟨_, rfl, rfl, ?_⟩
  intro hnone
  simp [print_addrsym, hnone]

/-- Witness for C10: the address `0x5000` lies outside the one module of the
example session. -/
theorem handle_address_literal_soft_witness :
    example_dwfl.addrmodule 0x5000 = none
    ∧ ∃ r, handle_address example_env {} "0x5000".toList "old".toList = .ok r ∧ r.code = 0
      ∧ ((match example_env.m_dwfl.addrmodule (strtoumax16 "0x5000".toList).1 with
          | none => none
          | some m => m.addrinfo (strtoumax16 "0x5000".toList).1) = none →
            r.symbol = "old".toList ∧ r.state = {}) :=
  ⟨rfl, handle_address_literal_soft example_env {} "0x5000".toList "old".toList rfl
    (by decide)⟩

/-! ## The section form is always followed by the symbol form -/

theorem sscanf_symbol_paren (t : CStr) :
    (∃ n i, sscanf_symbol ('(' :: t) = .name n i)
      ∨ (∃ n i a j, sscanf_symbol ('(' :: t) = .full n i a j) := by
  unfold sscanf_symbol
  have htw : List.takeWhile (fun c => c != '-' && c != '+') ('(' :: t)
      = '(' :: List.takeWhile (fun c => c != '-' && c != '+') t := by
    rw [List.takeWhile_cons]
    simp
  simp only [htw, List.isEmpty_cons, Bool.false_eq_true, if_false]
  cases scan_intmax (List.drop ('(' :: List.takeWhile (fun c => c != '-' && c != '+') t).length
      ('(' :: t)) with
  | none => exact Or.inl ⟨_, _, rfl⟩
  | some q => exact Or.inr ⟨_, _, _, _, rfl⟩

theorem sscanf_section_full_paren (s n : CStr) (a i : Nat)
    (h : sscanf_section s = .full n a i) : ∃ t, s = '(' :: t := by
  unfold sscanf_section at h
  cases s with
  | nil => simp at h
  | cons c t =>
    by_cases hc : c = '('
    · exact ⟨t, by rw [hc]⟩
    · simp [charAt, hc] at h

/-- Whenever the first `sscanf` converts a section name and an offset, the
second `sscanf` converts a name too, so the `switch` of `handle_address`
sets `addr` again: the result of the block is that of the symbol form for a
name, offset and end index that do not depend on the address
`adjust_to_section` computed. -/
theorem section_result_overwritten (dwfl : Dwfl) (addr_str : CStr) (a0 : Nat) (n : CStr)
    (a i : Nat) (hscan : sscanf_section addr_str = .full n a i) :
    ∃ name off j, ∀ p a1, section_form dwfl addr_str a0 = .ok (p, a1) →
      handle_address_forms dwfl addr_str a0 = symbol_form dwfl addr_str p name off j := by
  obtain ⟨t, rfl⟩ := sscanf_section_full_paren addr_str n a i hscan
  rcases sscanf_symbol_paren t with ⟨nm, k, h⟩ | ⟨nm, k, off, j, h⟩
  · exact ⟨nm, 0, k, fun p a1 hsec =>
      handle_address_forms_name dwfl _ nm a0 k p a1 hsec h⟩
  · exact ⟨nm, off, j, fun p a1 hsec =>
      handle_address_forms_full dwfl _ nm a0 k off j p a1 hsec h⟩

/-! ## `symname` -/

theorem not_underscore_Z (name : CStr) (h : ∀ t, name ≠ '_' :: 'Z' :: t) :
    (charAt name 0 == '_' && charAt name 1 == 'Z') = false := by
  cases name with
  | nil => simp [charAt]
  | cons a t =>
    cases t with
    | nil => simp [charAt]
    | cons b u =>
      by_cases ha : a = '_'
      · by_cases hb : b = 'Z'
        · exact absurd (by rw [ha, hb]) (h u)
        · simp [charAt, hb]
      · simp [charAt, ha]

/-- C11: `symname` returns its argument and leaves the state (the demangle
buffer) as it was, whatever the demangler would answer, for every name that
does not begin with the two characters `_Z` (the empty name and the name `_`
among them) and for every name when `demangle` is off; for a name that
begins with `_Z` and whose demangling fails it returns the original name and
leaves the demangle buffer as it was, too. -/
theorem symname_unchanged (env : Env) (st : State) (name : CStr) :
    ((∀ t, name ≠ '_' :: 'Z' :: t) →
        ∀ dem, symname { env with cxa_demangle := dem } st name = (name, st))
    ∧ (env.globals.demangle = false →
        ∀ dem, symname { env with cxa_demangle := dem } st name = (name, st))
    ∧ (∀ dem, symname { env with cxa_demangle := dem } st [] = ([], st))
    ∧ (∀ dem, symname { env with cxa_demangle := dem } st ['_'] = (['_'], st))
    ∧ (∀ t, env.cxa_demangle ('_' :: 'Z' :: t) = none →
        symname env st ('_' :: 'Z' :: t) = ('_' :: 'Z' :: t, st)
        ∧ (symname env st ('_' :: 'Z' :: t)).2.demangle_buffer = st.demangle_buffer) := by
  refine ⟨?_, ?_, ?_, ?_, ?_⟩
  · intro h dem
    have hz := not_underscore_Z name h
    unfold symname
    simp only [Bool.and_assoc, hz, Bool.and_false, Bool.false_eq_true, if_false]
  · intro h dem
    unfold symname
    simp only [h, Bool.false_and, Bool.false_eq_true, if_false]
  · intro dem
    simp [symname, charAt]
  · intro dem
    simp [symname, charAt]
  · intro t hfail
    have h : symname env st ('_' :: 'Z' :: t) = ('_' :: 'Z' :: t, st) := by
      unfold symname
      simp only [hfail]
      split <;> rfl
    exact ⟨h, by rw [h]⟩

/-! ## `print_dwarf_function` and `get_diename` -/

theorem get_diename_some (die : Dwarf_Die) : ∃ n, get_diename die = some n := by
  unfold get_diename
  simp only
  split
  · exact ⟨_, rfl⟩
  · split
    · exact ⟨_, rfl⟩
    · exact ⟨_, rfl⟩

theorem print_dwarf_function_loop_cons (pretty : Bool) (die : Dwarf_Die)
    (rest : List Dwarf_Die) :
    print_dwarf_function_loop pretty (die :: rest)
      = (stops_walk pretty die || print_dwarf_function_loop pretty rest) := by
  obtain ⟨n, hn⟩ := get_diename_some die
  rw [print_dwarf_function_loop]
  simp only [hn, stops_walk]
  by_cases h1 : die.tag = DW_TAG_subprogram
  · simp [h1]
  · by_cases h2 : die.tag = DW_TAG_inlined_subroutine
    · cases pretty <;> simp [h1, h2]
    · simp [h1, h2]

theorem print_dwarf_function_loop_any (pretty : Bool) (scopes : List Dwarf_Die) :
    print_dwarf_function_loop pretty scopes = scopes.any (stops_walk pretty) := by
  induction scopes with
  | nil => rfl
  | cons die rest ih => rw [print_dwarf_function_loop_cons, ih, List.any_cons]

theorem stops_walk_iff (pretty : Bool) (die : Dwarf_Die) :
    stops_walk pretty die = true ↔
      (die.tag = DW_TAG_subprogram
        ∨ (pretty = true ∧ die.tag = DW_TAG_inlined_subroutine)) := by
  simp [stops_walk]

theorem print_dwarf_function_iff (env : Env) (mod : Option Dwfl_Module) (addr : Nat) :
    print_dwarf_function env mod addr = true ↔
      ∃ scopes, getscopes mod addr = some scopes
        ∧ ∃ die ∈ scopes, die.tag = DW_TAG_subprogram
            ∨ (env.globals.pretty = true ∧ die.tag = DW_TAG_inlined_subroutine) := by
  unfold print_dwarf_function
  cases hs : getscopes mod addr with
  | none => simp
  | some scopes =>
    cases scopes with
    | nil => simp
    | cons d t =>
      simp only [List.length_cons, Nat.le_zero_eq, Nat.add_one_ne_zero, if_false,
        Option.some.injEq, exists_eq_left', print_dwarf_function_loop_any, List.any_eq_true,
        stops_walk_iff]

/-- C12: the walk of `print_dwarf_function` over the innermost-first scope
list.  Scopes at which it does not stop (in particular every scope whose tag
is neither Subprogram nor InlinedSubroutine) are passed over, and at the
first Subprogram, in pretty mode also at the first InlinedSubroutine, the
result is true whatever follows.  So the result is true exactly when the
list holds a Subprogram or, in pretty mode, an InlinedSubroutine; it is false
for the empty list, for a list of other tags and when `dwarf_getscopes` gives
no list.  `get_diename` always yields a name, and yields `??` when neither a
linkage-name string nor `dwarf_diename` is there. -/
theorem print_dwarf_function_walk (pretty : Bool) :
    (∀ pre rest, (∀ x ∈ pre, stops_walk pretty x = false) →
        print_dwarf_function_loop pretty (pre ++ rest)
          = print_dwarf_function_loop pretty rest)
    ∧ (∀ die post, stops_walk pretty die = true →
        print_dwarf_function_loop pretty (die :: post) = true)
    ∧ (∀ die, stops_walk pretty die = true ↔
        (die.tag = DW_TAG_subprogram
          ∨ (pretty = true ∧ die.tag = DW_TAG_inlined_subroutine)))
    ∧ (∀ scopes, print_dwarf_function_loop pretty scopes = true ↔
        ∃ die ∈ scopes, die.tag = DW_TAG_subprogram
          ∨ (pretty = true ∧ die.tag = DW_TAG_inlined_subroutine))
    ∧ print_dwarf_function_loop pretty [] = false
    ∧ (∀ scopes, (∀ die ∈ scopes, die.tag ≠ DW_TAG_subprogram
          ∧ die.tag ≠ DW_TAG_inlined_subroutine) →
        print_dwarf_function_loop pretty scopes = false)
    ∧ (∀ (env : Env) (mod : Option Dwfl_Module) (addr : Nat),
        print_dwarf_function env mod addr = true ↔
          ∃ scopes, getscopes mod addr = some scopes
            ∧ ∃ die ∈ scopes, die.tag = DW_TAG_subprogram
                ∨ (env.globals.pretty = true ∧ die.tag = DW_TAG_inlined_subroutine))
    ∧ (∀ die, ∃ n, get_diename die = some n)
    ∧ (∀ die : Dwarf_Die,
        (∀ a, die.MIPS_linkage_name = some a → a.formstring = none) →
        (die.MIPS_linkage_name = none → ∀ a, die.linkage_name = some a → a.formstring = none) →
        die.diename = none → get_diename die = some ['?', '?']) := by
  refine ⟨?_, ?_, stops_walk_iff pretty, ?_, rfl, ?_, print_dwarf_function_iff,
    get_diename_some, ?_⟩
  · intro pre rest hpre
    rw [print_dwarf_function_loop_any, print_dwarf_function_loop_any, List.any_append]
    have h : pre.any (stops_walk pretty) = false := by
      rw [List.any_eq_false]
      intro x hx
      simp [hpre x hx]
    rw [h, Bool.false_or]
  · intro die post hstop
    rw [print_dwarf_function_loop_cons, hstop, Bool.true_or]
  · intro scopes
    simp only [print_dwarf_function_loop_any, List.any_eq_true, stops_walk_iff]
  · intro scopes hother
    rw [print_dwarf_function_loop_any, List.any_eq_false]
    intro die hdie
    obtain ⟨h1, h2⟩ := hother die hdie
    simp [stops_walk, h1, h2]
  · intro die hmips hlink hname
    unfold get_diename
    cases hm : die.MIPS_linkage_name with
    | some a => simp [hmips a hm, hname]
    | none =>
      cases hl : die.linkage_name with
      | some a => simp [hlink hm a hl, hname]
      | none => simp [hname]

/-- The walk on example scope lists: a block, an inlined call, then the
function.  Pretty mode stops at the inlined call; the other mode goes on to
the function and finds nothing when the list ends before it. -/
theorem print_dwarf_function_loop_examples :
    print_dwarf_function_loop true [block_die, inlined_die, subprogram_die] = true
    ∧ print_dwarf_function_loop true [block_die, inlined_die] = true
    ∧ print_dwarf_function_loop false [block_die, inlined_die, subprogram_die] = true
    ∧ print_dwarf_function_loop false [block_die, inlined_die] = false
    ∧ print_dwarf_function_loop true [block_die] = false
    ∧ get_diename block_die = some ['?', '?']
    ∧ get_diename inlined_die = some "add".toList
    ∧ get_diename subprogram_die = some "main".toList :=
  ⟨rfl, rfl, rfl, rfl, rfl, rfl, rfl, rfl⟩

/-- The outcomes of `symname` on the example resolver: a name the demangler
knows, a `_Z` name it rejects, and names without the `_Z` start. -/
theorem symname_examples :
    symname demangling_env {} "_Z3addii".toList
        = ("add(int, int)".toList, { demangle_buffer := some "add(int, int)".toList })
    ∧ symname demangling_env { demangle_buffer := some "old".toList } "_Zbad".toList
        = ("_Zbad".toList, { demangle_buffer := some "old".toList })
    ∧ symname demangling_env {} "add".toList = ("add".toList, {})
    ∧ symname demangling_env {} ['_'] = (['_'], {})
    ∧ symname demangling_env {} [] = ([], {}) :=
  ⟨rfl, rfl, rfl, rfl, rfl⟩

end SymbolResolver
